import Mathlib

set_option maxHeartbeats 1000000

/-!
Verification development for the nuntium MMS mediator.

The Go sources embedded here are `cmd/nuntium/mediator.go`,
`telepathy/service.go` and `storage/const.go`.  Machine state
(persistent store, in-memory transaction registry, live message
surfaces, the notification channel) is represented explicitly and each
handler of the mediator event loop becomes a state-transformer
function.  External collaborators (radio context, HTTP transport, the
PDU codec, the desktop bus, the history service) are represented by
outcome parameters, mirroring the error classification of the source.
The storage package implementation is not part of the sources; its
operations are modelled from the spec (section 4.A), as noted on each
definition.
-/

/- ### Association lists keyed by strings

Used for the persistent store (UUID keyed), the transaction registry
(transaction-id keyed) and property dictionaries. -/

def sfind {α : Type} : List (String × α) → String → Option α
  | [], _ => none
  | (k, v) :: rest, key => if k = key then some v else sfind rest key

def sput {α : Type} : List (String × α) → String → α → List (String × α)
  | [], key, val => [(key, val)]
  | (k, v) :: rest, key, val =>
      if k = key then (key, val) :: rest else (k, v) :: sput rest key val

def sdel {α : Type} : List (String × α) → String → List (String × α)
  | [], _ => []
  | (k, v) :: rest, key => if k = key then sdel rest key else (k, v) :: sdel rest key

/- ### Data model -/

/-- The decoded M-Notification.ind, `mms` package.  Fields are the ones the
embedded handlers read: UUID, TransactionId, RedownloadOfUUID, Received,
Expire, From, Size.  Timestamps are unix seconds as `Nat`.  The in-band
debug-error side door is not modelled (non-debug paths only). -/
structure MNotificationInd where
  uuid : String
  transactionId : String
  redownloadOfUUID : String
  received : Nat
  expire : Nat
  fromField : String
  size : Nat
deriving DecidableEq

/-- `MNotificationInd.Expired()`: wall-clock time is past the Expire header. -/
def expired (n : MNotificationInd) (now : Nat) : Bool :=
  decide (n.expire < now)

/-- storage/const.go: the per-record state constants. -/
inductive MState where
  | notification
  | downloaded
  | received
  | responded
  | draft
  | sent
deriving DecidableEq

/-- Modelled from the spec: the per-UUID persistent `MMSState` record
(spec section 3); the storage package implementation is not among the
sources. -/
structure MMSState where
  modemId : String
  state : MState
  mNotificationInd : Option MNotificationInd
  telepathyErrorNotified : Bool
  contentPath : String
deriving DecidableEq

/-- Modelled from the spec: a record is incoming iff its state is one of
notification, downloaded, received, responded (spec invariant 4). -/
def isIncoming (st : MState) : Bool :=
  match st with
  | .notification => true
  | .downloaded => true
  | .received => true
  | .responded => true
  | .draft => false
  | .sent => false

/-- The persistent store, keyed by UUID. -/
def Store : Type := List (String × MMSState)

/-- Modelled from the spec: `Create(modem_id, notif)` inserts a fresh record
in state notification holding the notification. -/
def storageCreate (store : Store) (modemId : String) (n : MNotificationInd) : Store :=
  sput store n.uuid
    { modemId := modemId, state := .notification, mNotificationInd := some n,
      telepathyErrorNotified := false, contentPath := "" }

/-- Modelled from the spec: `GetMMSState(uuid)` returns the record or NotFound. -/
def storageGetMMSState (store : Store) (uuid : String) : Option MMSState :=
  sfind store uuid

/-- Modelled from the spec: `UpdateDownloaded` requires current state
notification and advances to downloaded, recording the content path;
`none` is the error result. -/
def storageUpdateDownloaded (store : Store) (uuid path : String) : Option Store :=
  match sfind store uuid with
  | some r =>
      if r.state = .notification then
        some (sput store uuid { r with state := .downloaded, contentPath := path })
      else none
  | none => none

/-- Modelled from the spec: `UpdateReceived` requires downloaded, advances to
received. -/
def storageUpdateReceived (store : Store) (uuid : String) : Option Store :=
  match sfind store uuid with
  | some r =>
      if r.state = .downloaded then
        some (sput store uuid { r with state := .received })
      else none
  | none => none

/-- Modelled from the spec: `UpdateResponded` requires received, advances to
responded. -/
def storageUpdateResponded (store : Store) (uuid : String) : Option Store :=
  match sfind store uuid with
  | some r =>
      if r.state = .received then
        some (sput store uuid { r with state := .responded })
      else none
  | none => none

/-- Modelled from the spec: `SetTelepathyErrorNotified(uuid)`, an idempotent
flag set; fails (`none`) when the record does not exist. -/
def storageSetTelepathyErrorNotified (store : Store) (uuid : String) : Option Store :=
  match sfind store uuid with
  | some r => some (sput store uuid { r with telepathyErrorNotified := true })
  | none => none

/-- Modelled from the spec: `Destroy(uuid)` removes the record and its
content file. -/
def storageDestroy (store : Store) (uuid : String) : Store :=
  sdel store uuid

/- ### The MmsEnabled feature flag query (mediator.go 630-659) -/

/-- Environment of one `mmsEnabled` query: which of the four dbus-side steps
succeed, and the boolean the accounts service reports when everything
succeeds.  `getCallOk` is false when the property-get call errors or the
reply is of error type; `argsOk` is false when decoding the reply fails. -/
structure DbusEnv where
  connectOk : Bool
  userOk : Bool
  getCallOk : Bool
  argsOk : Bool
  mmsValue : Bool
deriving DecidableEq

/-- mediator.go 630-659: by default returns true, unless strictly requested
to disable. -/
def mmsEnabled (env : DbusEnv) : Bool :=
  if !env.connectOk then true
  else if !env.userOk then true
  else if !env.getCallOk then true
  else if !env.argsOk then true
  else env.mmsValue

/- ### Outbound send status mapping (mediator.go 551-586) -/

/-- `MSendConf.Status()` as data: nil, permanent or transient
(spec section 4.F). -/
inductive SendErr where
  | permanent
  | transient
deriving DecidableEq

/-- The decoded M-Send.conf, reduced to what `sendMSendReq` reads. -/
structure MSendConf where
  status : Option SendErr
deriving DecidableEq

/-- telepathy statuses (spec sections 4.C and 4.E.3). -/
def SENT : String := "sent"

def PERMANENT_ERROR : String := "permanent-error"

def TRANSIENT_ERROR : String := "transient-error"

/-- Environment of one `sendMSendReq` run: the upload result (response file
on success) and the decode result of that response file. -/
structure SendReqEnv where
  uploadResult : Option String
  decodeResult : Option MSendConf
deriving DecidableEq

/-- Observable result of one `sendMSendReq` run. -/
structure SendReqResult where
  statusEmitted : Option String
  surfaceDestroyed : Bool
  removedFiles : List String
deriving DecidableEq

/-- mediator.go 551-586: upload the encoded M-Send.req, decode the
M-Send.conf, map its status to a surface status; the deferred calls remove
the scratch files and destroy the surface object on every path. -/
def sendMSendReq (env : SendReqEnv) (reqFile : String) : SendReqResult :=
  match env.uploadResult with
  | none =>
      { statusEmitted := some TRANSIENT_ERROR, surfaceDestroyed := true,
        removedFiles := [reqFile] }
  | some confFile =>
      match env.decodeResult with
      | none =>
          { statusEmitted := some TRANSIENT_ERROR, surfaceDestroyed := true,
            removedFiles := [confFile, reqFile] }
      | some conf =>
          let status :=
            match conf.status with
            | none => SENT
            | some .permanent => PERMANENT_ERROR
            | some .transient => TRANSIENT_ERROR
          { statusEmitted := some status, surfaceDestroyed := true,
            removedFiles := [confFile, reqFile] }

/- ### Telepathy service: message surface properties (service.go) -/

/-- The PLMN suffix stripped from senders and recipients.  Modelled from the
spec: operators append a PLMN suffix to telephone numbers (the constant
itself lives outside the embedded sources). -/
def PLMN : String := "/TYPE=PLMN"

/-- Go strings.TrimSuffix. -/
def trimSuffix (s sfx : String) : String :=
  if s.endsWith sfx then s.dropRight sfx.length else s

/-- The dbus root path of the service.  Spec section 6: the service object
lives at /org/nuntium/mms/<identity>. -/
def MMS_DBUS_PATH : String := "/org/nuntium/mms"

/-- service.go 584-590, non-nil service: path of a message object. -/
def genMessagePath (identity uuid : String) : String :=
  MMS_DBUS_PATH ++ "/" ++ identity ++ "/" ++ uuid

/-- Abstract rendering of Go time.Format(time.RFC3339) over unix seconds;
always a non-empty string. -/
def fmtRFC3339 (t : Nat) : String :=
  "rfc3339:" ++ toString t

/-- The JSON error object marshalled in service.go 374-384, with the
omitempty fields made explicit: Expire is omitted when the formatted string
is empty, Size when zero, MobileData when the pointer is nil. -/
structure ErrPayload where
  code : String
  message : String
  expire : Option String
  size : Option Nat
  mobileData : Option Bool
deriving DecidableEq

/-- One attachment descriptor as broadcast in message properties
(service.go 60-66). -/
structure AttachmentRec where
  id : String
  mediaType : String
  filePath : String
  offset : Nat
  length : Nat
deriving DecidableEq

/-- dbus variants appearing in message properties (tagged sum). -/
inductive Variant where
  | str (s : String)
  | boolean (b : Bool)
  | nat (n : Nat)
  | strList (l : List String)
  | payload (p : ErrPayload)
  | attachments (l : List AttachmentRec)
deriving DecidableEq

/-- A download error as `IncomingMessageFailAdded` inspects it: the Code()
and AllowRedownload() interfaces may or may not be implemented by the
dynamic error value (`none` when not), plus the Error() message. -/
structure DownloadErrInfo where
  code : Option String
  allowRedownload : Option Bool
  message : String
deriving DecidableEq

/-- The fallback code of service.go 350. -/
def unknownErrorCode : String := "x-ubports-nuntium-mms-error-unknown"

/-- Result of `IncomingMessageFailAdded`: whether the created message
interface got a redownload channel, and the broadcast properties. -/
structure FailAddedOut where
  redownloadChanPresent : Bool
  props : List (String × Variant)
deriving DecidableEq

/-- service.go 333-404 (non-debug path): build the failure surface.
`mobileData` is the result of the MobileDataEnabled query (`none` on error),
`now` is time.Now. -/
def IncomingMessageFailAdded (identity : String) (n : MNotificationInd)
    (e : DownloadErrInfo) (mobileData : Option Bool) (now : Nat) : FailAddedOut :=
  let params0 : List (String × Variant) :=
    [("Status", .str "received"),
     ("Date", .str (fmtRFC3339 now)),
     ("Sender", .str (trimSuffix n.fromField PLMN))]
  let errorCode := e.code.getD unknownErrorCode
  let allowRedownload0 := e.allowRedownload.getD false
  let expireStr := fmtRFC3339 n.expire
  let allowRedownload :=
    if allowRedownload0 && expired n now then false else allowRedownload0
  let payload : ErrPayload :=
    { code := errorCode, message := e.message,
      expire := if expireStr = "" then none else some expireStr,
      size := if n.size = 0 then none else some n.size,
      mobileData := mobileData }
  let params1 := sput (sput params0 "Error" (.payload payload))
    "AllowRedownload" (.boolean allowRedownload)
  let params2 :=
    if n.redownloadOfUUID ≠ "" then
      sput params1 "DeleteEvent" (.str (genMessagePath identity n.redownloadOfUUID))
    else params1
  let params3 :=
    if n.received ≠ 0 then
      sput params2 "Received" (.nat (n.received % 2 ^ 32))
    else params2
  { redownloadChanPresent := allowRedownload, props := params3 }

/-- service.go 118-131: a user delete request is refused (only logged) when
the state lookup succeeds and the record is not responded, holds a
notification and that notification is not expired. -/
def deleteRefused (st : Option MMSState) (now : Nat) : Bool :=
  match st with
  | none => false
  | some s =>
      match s.mNotificationInd with
      | none => false
      | some n => s.state != .responded && !(expired n now)

/- ### The mediator transition system

State observed at handler boundaries: the transaction registry
(`unrespondedTransactions`), the persistent store, the set of live message
interfaces (`messageHandlers`, by UUID), the queue of notifications sitting
on the `NewMNotificationInd` channel, and the trace of emitted surface
signals.  `used` and `delivered` are bookkeeping: `used` holds every UUID
ever handed out (GenUUID freshness is modelled by stuttering on a non-fresh
UUID), `delivered` the UUIDs already consumed by `handleMNotificationInd`. -/

inductive Ev where
  | added (tid uuid : String)
  | failAdded (tid uuid : String)
  | removed (uuid : String)
  | rescued (uuid : String)
deriving DecidableEq

instance : DecidableEq Store :=
  inferInstanceAs (DecidableEq (List (String × MMSState)))

structure TraceState where
  registry : List (String × String)
  store : Store
  handlers : List String
  pending : List MNotificationInd
  events : List Ev
  used : List String
  delivered : List String
deriving DecidableEq

def addHandler (hs : List String) (u : String) : List String :=
  if u ∈ hs then hs else u :: hs

/-- service.go 292-315 `MessageRemoved`: close and drop the message
interface, destroy the store record, then broadcast removal; an error
(false) when no interface is registered at the path. -/
def messageRemoved (s : TraceState) (uuid : String) : TraceState × Bool :=
  if uuid ∈ s.handlers then
    ({ s with handlers := s.handlers.erase uuid,
              store := storageDestroy s.store uuid,
              events := s.events ++ [.removed uuid] }, true)
  else (s, false)

/-- mediator.go 326/328: the looked-up registry entry exists and differs
from the notification's UUID. -/
def priorDiffers (unresp : Option String) (uuid : String) : Bool :=
  match unresp with
  | some u => u != uuid
  | none => false

/-- mediator.go 325-394 `handleMessageDownloadError`.  `addOk` is the
outcome of the IncomingMessageFailAdded broadcast (the message interface is
registered before the signal is sent, so it stays registered even when the
signal fails). -/
def handleMessageDownloadError (s : TraceState) (n : MNotificationInd)
    (addOk : Bool) : TraceState :=
  let unresp := sfind s.registry n.transactionId
  let dupA : Bool := (n.transactionId != "") && (n.redownloadOfUUID == "")
      && priorDiffers unresp n.uuid
  let dupB : Bool := (n.transactionId != "") && priorDiffers unresp n.uuid
  let priorSettled : Bool :=
    match unresp with
    | some u =>
        match sfind s.store u with
        | some r => r.telepathyErrorNotified || r.state == .received
            || r.state == .responded
        | none => false
    | none => false
  if dupA && priorSettled then
    -- 331-341: the prior artifact reached the user; drop silently, destroy
    -- the duplicate record.
    { s with store := storageDestroy s.store n.uuid }
  else
    let s1 := { s with handlers := addHandler s.handlers n.uuid }
    if !addOk then
      -- 350-363: broadcast failed; destroy the duplicate when prior differs.
      if dupA then { s1 with store := storageDestroy s1.store n.uuid } else s1
    else
      let s2 := { s1 with events := s1.events ++ [.failAdded n.transactionId n.uuid] }
      match storageSetTelepathyErrorNotified s2.store n.uuid with
      | none =>
          -- 365-377: flag update failed; same cleanup.
          if dupA then { s2 with store := storageDestroy s2.store n.uuid } else s2
      | some st3 =>
          let s3 := { s2 with store := st3 }
          if dupB then
            -- 379-393: remove the prior surface; on success destroy
            -- mNotificationInd.UUID from storage; repoint the registry.
            match unresp with
            | some u =>
                let rm := messageRemoved s3 u
                let s5 :=
                  if rm.2 then { rm.1 with store := storageDestroy rm.1.store n.uuid }
                  else rm.1
                { s5 with registry := sput s5.registry n.transactionId n.uuid }
            | none => s3
          else s3

/-- mediator.go 417-452 `getAndHandleMRetrieveConf`.  `decodeOk` covers
getMRetrieveConf (read + decode of the stored PDU), `addOk` the
IncomingMessageAdded broadcast.  Returns the (possibly mutated)
notification — line 430 sets RedownloadOfUUID on the shared pointer —
the new state, and success. -/
def getAndHandleMRetrieveConf (s : TraceState) (n : MNotificationInd)
    (decodeOk addOk : Bool) : MNotificationInd × TraceState × Bool :=
  if !decodeOk then (n, s, false)
  else
    let unresp := sfind s.registry n.transactionId
    let cond : Bool := (n.transactionId != "") && (n.redownloadOfUUID == "")
        && priorDiffers unresp n.uuid
    let mark : Bool := cond &&
      (match unresp with
       | some u =>
           match sfind s.store u with
           | some r => r.telepathyErrorNotified
           | none => false
       | none => false)
    let n1 := if mark then { n with redownloadOfUUID := unresp.getD "" } else n
    let s1 := { s with handlers := addHandler s.handlers n.uuid }
    if !addOk then (n1, s1, false)
    else
      let s2 := { s1 with events := s1.events ++ [.added n1.transactionId n1.uuid] }
      if mark then
        match unresp with
        | some u => (n1, (messageRemoved s2 u).1, true)
        | none => (n1, s2, true)
      else (n1, s2, true)

/-- Outcome kinds of one `handleMNotificationInd` run, mirroring the failure
points of mediator.go 233-313.  Storage failures are not free parameters:
the modelled store fails exactly on precondition violation. -/
inductive OutcomeKind where
  | failActivate
  | failDownload
  | failDecode
  | failAddSignal
  | success (respondOk : Bool)
deriving DecidableEq

structure Outcome where
  kind : OutcomeKind
  hmdeAddOk : Bool
deriving DecidableEq

/-- mediator.go 219-231: register the transaction in
`unrespondedTransactions` if absent, or re-point it when the pointed UUID
has no record in storage. -/
def registerTransaction (registry : List (String × String)) (store : Store)
    (n : MNotificationInd) : List (String × String) :=
  if n.transactionId = "" then registry
  else
    match sfind registry n.transactionId with
    | none => sput registry n.transactionId n.uuid
    | some u =>
        match sfind store u with
        | none => sput registry n.transactionId n.uuid
        | some _ => registry

/-- mediator.go 215-321 `handleMNotificationInd` (non-debug, non-deferred). -/
def deliver (s : TraceState) (n : MNotificationInd) (o : Outcome) : TraceState :=
  let s0 := { s with registry := registerTransaction s.registry s.store n,
                     delivered := n.uuid :: s.delivered }
  match o.kind with
  | .failActivate => handleMessageDownloadError s0 n o.hmdeAddOk
  | .failDownload => handleMessageDownloadError s0 n o.hmdeAddOk
  | k =>
      match storageUpdateDownloaded s0.store n.uuid ("content-" ++ n.uuid) with
      | none => handleMessageDownloadError s0 n o.hmdeAddOk
      | some st1 =>
          let s1 := { s0 with store := st1 }
          match k with
          | .failDecode =>
              let g := getAndHandleMRetrieveConf s1 n false true
              handleMessageDownloadError g.2.1 g.1 o.hmdeAddOk
          | .failAddSignal =>
              let g := getAndHandleMRetrieveConf s1 n true false
              handleMessageDownloadError g.2.1 g.1 o.hmdeAddOk
          | .success respondOk =>
              let g := getAndHandleMRetrieveConf s1 n true true
              let s2 := g.2.1
              match storageUpdateReceived s2.store n.uuid with
              | none => s2
              | some st2 =>
                  let s3 := { s2 with store := st2 }
                  if respondOk then
                    -- 314-320: the registry entry is removed before
                    -- UpdateResponded.
                    let s4 := { s3 with registry := sdel s3.registry n.transactionId }
                    match storageUpdateResponded s4.store n.uuid with
                    | none => s4
                    | some st3 => { s4 with store := st3 }
                  else s3
          | _ => s1

/-- mediator.go 156-171: rewrite the incoming Received timestamp to the
stored first-push timestamp when the transaction is already tracked and the
pointed record still holds a notification. -/
def adjustReceived (registry : List (String × String)) (store : Store)
    (n : MNotificationInd) : MNotificationInd :=
  if n.transactionId = "" then n
  else
    match sfind registry n.transactionId with
    | none => n
    | some u =>
        match sfind store u with
        | some r =>
            match r.mNotificationInd with
            | some stored => { n with received := stored.received }
            | none => n
        | none => n

/-- mediator.go 143-175 `handlePushAgentNotification`: decode, rewrite the
Received timestamp via `adjustReceived`, create the store record, queue the
notification for `handleMNotificationInd`.  Decoded notifications carry a
fresh UUID (GenUUID) and no redownload back-reference; the model stutters
otherwise. -/
def pushStep (s : TraceState) (modemId : String) (n : MNotificationInd) : TraceState :=
  if n.uuid ∈ s.used ∨ n.redownloadOfUUID ≠ "" then s
  else
    let n1 := adjustReceived s.registry s.store n
    { s with store := storageCreate s.store modemId n1,
             pending := s.pending ++ [n1],
             used := n.uuid :: s.used }

/-- service.go 133-161 `watchMessageRedownloadCalls`, one request: honour it
only when the record loads, is in state notification and holds a
notification; then remove the old surface, create a fresh-UUID record whose
notification back-references the old UUID, and queue it for the mediator. -/
def redownloadStep (s : TraceState) (uuid freshUuid : String) : TraceState :=
  if freshUuid ∈ s.used then s
  else
    match sfind s.store uuid with
    | none => s
    | some r =>
        if r.state ≠ .notification then s
        else
          match r.mNotificationInd with
          | none => s
          | some stored =>
              let s1 := (messageRemoved s uuid).1
              let n1 := { stored with redownloadOfUUID := stored.uuid, uuid := freshUuid }
              { s1 with store := storageCreate s1.store r.modemId n1,
                        pending := s1.pending ++ [n1],
                        used := freshUuid :: s1.used }

/-- service.go 118-131 `watchMessageDeleteCalls`, one request. -/
def deleteStep (s : TraceState) (uuid : String) (now : Nat) : TraceState :=
  if deleteRefused (storageGetMMSState s.store uuid) now then s
  else (messageRemoved s uuid).1

/- ### Startup reconciliation (mediator.go 661-865) -/

/-- Per-UUID outcomes of the external calls made during reconciliation. -/
structure InitOracle where
  decodeOk : String → Bool
  addOk : String → Bool
  respondOk : String → Bool
  histGetOk : String → Bool
  histExists : String → Bool
  histIsNewOk : String → Bool
  histIsNew : String → Bool

/-- service.go 435-473 `InitializationMessageAdded`: error when a message
interface already exists for the UUID, otherwise register one and broadcast
the Rescued/Silent payload. -/
def initAdded (s : TraceState) (uuid : String) : TraceState :=
  if uuid ∈ s.handlers then s
  else { s with handlers := addHandler s.handlers uuid,
                events := s.events ++ [.rescued uuid] }

/-- mediator.go 815-850, the responded tail of the switch: drop the
transaction from the registry, then consult the history service. -/
def reconcileResponded (s : TraceState) (uuid : String) (nf : MNotificationInd)
    (checkInHistory : Bool) (o : InitOracle) : TraceState :=
  let s1 := { s with registry := sdel s.registry nf.transactionId }
  if checkInHistory then
    if !o.histGetOk uuid then initAdded s1 uuid
    else if !o.histExists uuid then { s1 with store := storageDestroy s1.store uuid }
    else if !o.histIsNewOk uuid then initAdded s1 uuid
    else if !o.histIsNew uuid then { s1 with store := storageDestroy s1.store uuid }
    else initAdded s1 uuid
  else initAdded s1 uuid

/-- mediator.go 786-814, the received tail: respond (no-op when expired),
then UpdateResponded and fall through. -/
def reconcileReceived (s : TraceState) (uuid : String) (nf : MNotificationInd)
    (checkInHistory : Bool) (o : InitOracle) (now : Nat) : TraceState :=
  if expired nf now || o.respondOk uuid then
    match storageUpdateResponded s.store nf.uuid with
    | none => initAdded s uuid
    | some st => reconcileResponded { s with store := st } uuid nf checkInHistory o
  else initAdded s uuid

/-- One iteration of the loop in mediator.go 666-863.  The accumulator is
(handledTransactions, state). -/
def reconcileOne (modemId : String) (now : Nat) (o : InitOracle)
    (acc : List (String × String) × TraceState) (uuid : String) :
    List (String × String) × TraceState :=
  let handled := acc.1
  let s := acc.2
  match sfind s.store uuid with
  | none => (handled, { s with store := storageDestroy s.store uuid })
  | some r =>
      if !(isIncoming r.state) then (handled, s)
      else if r.modemId = "" then (handled, { s with store := storageDestroy s.store uuid })
      else if r.modemId ≠ modemId then (handled, s)
      else
        match r.mNotificationInd with
        | none => (handled, { s with store := storageDestroy s.store uuid })
        | some nf =>
            if nf.transactionId ≠ "" ∧ (sfind handled nf.transactionId).isSome then
              (handled, { s with store := storageDestroy s.store uuid })
            else
              let handled1 :=
                if nf.transactionId ≠ "" then sput handled nf.transactionId uuid
                else handled
              let s1 :=
                if nf.transactionId ≠ "" then
                  { s with registry := sput s.registry nf.transactionId uuid }
                else s
              match r.state with
              | .notification =>
                  if !r.telepathyErrorNotified then
                    -- 744-746: re-feed through the channel.
                    (handled1, { s1 with pending := s1.pending ++ [nf] })
                  else if expired nf now then
                    -- 720-733 and 749-754: destroy, signal removal, drop
                    -- from the registry.
                    (handled1, { s1 with
                        store := storageDestroy s1.store uuid,
                        events := s1.events ++ [.removed uuid],
                        registry := sdel s1.registry nf.transactionId })
                  else (handled1, initAdded s1 uuid)
              | .downloaded =>
                  let g := getAndHandleMRetrieveConf s1 nf (o.decodeOk uuid) (o.addOk uuid)
                  if !g.2.2 then (handled1, initAdded g.2.1 uuid)
                  else
                    match storageUpdateReceived g.2.1.store g.1.uuid with
                    | none => (handled1, initAdded g.2.1 uuid)
                    | some st =>
                        (handled1,
                         reconcileReceived { g.2.1 with store := st } uuid nf false o now)
              | .received => (handled1, reconcileReceived s1 uuid nf true o now)
              | .responded => (handled1, reconcileResponded s1 uuid nf true o)
              | .draft => (handled1, s1)
              | .sent => (handled1, s1)

/-- mediator.go 661-865 `initializeMessages` as one atomic step, iterating
over the stored UUIDs present at entry. -/
def reconcileStep (s : TraceState) (modemId : String) (now : Nat)
    (o : InitOracle) : TraceState :=
  ((s.store.map Prod.fst).foldl (reconcileOne modemId now o) ([], s)).2

/- ### Steps and traces -/

inductive Step where
  | push (modemId : String) (n : MNotificationInd)
  | deliverIdx (i : Nat) (o : Outcome)
  | redownload (uuid freshUuid : String)
  | deleteCall (uuid : String) (now : Nat)
  | reconcile (modemId : String) (now : Nat) (o : InitOracle)

def applyStep (s : TraceState) (st : Step) : TraceState :=
  match st with
  | .push modemId n => pushStep s modemId n
  | .deliverIdx i o =>
      match s.pending[i]? with
      | none => s
      | some n => deliver { s with pending := s.pending.eraseIdx i } n o
  | .redownload uuid freshUuid => redownloadStep s uuid freshUuid
  | .deleteCall uuid now => deleteStep s uuid now
  | .reconcile modemId now o => reconcileStep s modemId now o

def runTrace (s : TraceState) : List Step → TraceState
  | [] => s
  | st :: rest => runTrace (applyStep s st) rest

/-- Boot state over a persisted store. -/
def startState (store : Store) : TraceState :=
  { registry := [], store := store, handlers := [], pending := [],
    events := [], used := store.map Prod.fst, delivered := [] }

/- ### Inbound success surface (service.go 406-433, 500-551) -/

/-- One data part of a decoded M-Retrieve.conf (content-id, media-type,
byte offset, data length), spec section 4.F. -/
structure DataPart where
  contentId : String
  mediaType : String
  offset : Nat
  dataLen : Nat
deriving DecidableEq

/-- The decoded M-Retrieve.conf, reduced to the fields `parseMessage`
reads. -/
structure MRetrieveConf where
  uuid : String
  date : Nat
  fromField : String
  subject : String
  toField : List String
  smil : Option String
  parts : List DataPart
deriving DecidableEq

/-- service.go 543-551: the To entries with the PLMN suffix stripped.  The
source joins on commas and re-splits; for comma-free entries (the wire
format) the effect is a per-entry suffix strip. -/
def parseRecipients (recips : List String) : List String :=
  recips.map fun r => if r.endsWith PLMN then r.dropRight PLMN.length else r

/-- service.go 500-535 `parseMessage`: the fully parsed inbound properties.
`contentPath` is the `storage.GetMMS` result (`none` = error, which aborts
the parse when there is at least one data part). -/
def parseMessage (identity : String) (m : MRetrieveConf)
    (contentPath : Option String) : Option (String × List (String × Variant)) :=
  let base : List (String × Variant) :=
    [("Status", .str "received"),
     ("Date", .str (fmtRFC3339 m.date)),
     ("Sender", .str (trimSuffix m.fromField PLMN))]
  let withSubject :=
    if m.subject ≠ "" then sput base "Subject" (.str m.subject) else base
  let withRecipients :=
    sput withSubject "Recipients" (.strList (parseRecipients m.toField))
  let withSmil :=
    match m.smil with
    | some sm => sput withRecipients "Smil" (.str sm)
    | none => withRecipients
  match contentPath with
  | none =>
      if m.parts.isEmpty then
        some (genMessagePath identity m.uuid, sput withSmil "Attachments" (.attachments []))
      else none
  | some p =>
      some (genMessagePath identity m.uuid,
        sput withSmil "Attachments" (.attachments (m.parts.map fun dp =>
          { id := dp.contentId, mediaType := dp.mediaType, filePath := p,
            offset := dp.offset, length := dp.dataLen })))

/-- service.go 406-433 `IncomingMessageAdded` (non-debug), at the level of
the broadcast payload: the parsed properties plus the DeleteEvent
back-reference for redownloads and the Received stamp. -/
def IncomingMessageAddedProps (identity : String) (m : MRetrieveConf)
    (n : MNotificationInd) (contentPath : Option String) :
    Option (String × List (String × Variant)) :=
  match parseMessage identity m contentPath with
  | none => none
  | some pl =>
      let p1 :=
        if n.redownloadOfUUID ≠ "" then
          sput pl.2 "DeleteEvent" (.str (genMessagePath identity n.redownloadOfUUID))
        else pl.2
      let p2 := if n.received ≠ 0 then sput p1 "Received" (.nat n.received) else p1
      some (pl.1, p2)

/- ### Surface-event counting (spec invariant I1) -/

def isSurfaceEv (tid : String) : Ev → Bool
  | .added t _ => t == tid
  | .failAdded t _ => t == tid
  | _ => false

/-- The number of user-visible surface events (message added plus error
added) carrying the given transaction id. -/
def surfaceCount (tid : String) (evs : List Ev) : Nat :=
  (evs.filter (isSurfaceEv tid)).length

/- ### Trace constraints -/

/-- Pointwise constraint of a trace from a given state. -/
def OkFrom (P : TraceState → Step → Prop) : TraceState → List Step → Prop
  | _, [] => True
  | s, st :: rest => P s st ∧ OkFrom P (applyStep s st) rest

/-- A deliver step consumes a notification whose UUID was not delivered
before (rules out double consumption of the same stored notification). -/
def deliverOnce (s : TraceState) (st : Step) : Prop :=
  match st with
  | .deliverIdx i _ => ∀ n, s.pending[i]? = some n → n.uuid ∉ s.delivered
  | _ => True

/- ### Concrete fixtures used by witnesses and counterexamples -/

def wNotifA : MNotificationInd := ⟨"A", "T", "", 5, 100, "from", 1⟩

def wNotifB : MNotificationInd := ⟨"B", "T", "", 7, 100, "from", 1⟩

def wRecA : MMSState := ⟨"m", .notification, some wNotifA, false, ""⟩

def wRecB : MMSState := ⟨"m", .notification, some wNotifB, false, ""⟩

def c1Trace : List Step :=
  [.push "m" wNotifA, .deliverIdx 0 ⟨.failActivate, true⟩,
   .push "m" wNotifB, .deliverIdx 0 ⟨.success true, true⟩]

def c3Start : TraceState :=
  { registry := [("T", "A")], store := [("A", wRecA), ("B", wRecB)],
    handlers := ["A"], pending := [], events := [], used := ["A", "B"],
    delivered := ["A", "B"] }

def c4AllOk : InitOracle :=
  ⟨fun _ => true, fun _ => true, fun _ => true, fun _ => true,
   fun _ => true, fun _ => true, fun _ => true⟩

def c4Trace : List Step :=
  [.push "m" wNotifA, .reconcile "m" 0 c4AllOk,
   .deliverIdx 0 ⟨.success true, true⟩, .deliverIdx 0 ⟨.failActivate, true⟩]

def c2Reg : List (String × String) := [("T", "A")]

def c2Store : Store := [("A", wRecA)]

def c6WS : TraceState :=
  { registry := [], store := [("A", wRecA)], handlers := ["A"], pending := [],
    events := [], used := ["A"], delivered := [] }

def c7N : MNotificationInd := ⟨"E", "T", "A", 5, 100, "f", 1⟩

def OutcomeKind.isSuccess : OutcomeKind → Bool
  | .success _ => true
  | _ => false

/-- Trace alphabet of spec invariant I1: operator pushes and their handler
runs, with reliable telepathy signal delivery, and no successful download
for the observed transaction id. -/
def c1Step (T : String) (s : TraceState) (st : Step) : Prop :=
  match st with
  | .push _ _ => True
  | .deliverIdx i o =>
      o.hmdeAddOk = true ∧ o.kind ≠ .failAddSignal ∧
      (∀ n, s.pending[i]? = some n → n.transactionId = T →
        o.kind.isSuccess = false)
  | _ => False

structure C1Inv (T : String) (s : TraceState) : Prop where
  usedStore : ∀ u r, sfind s.store u = some r → u ∈ s.used
  usedReg : ∀ tid u, sfind s.registry tid = some u → u ∈ s.used
  usedPending : ∀ n, n ∈ s.pending → n.uuid ∈ s.used
  pendingRec : ∀ n, n ∈ s.pending → ∃ r, sfind s.store n.uuid = some r ∧
      r.state = MState.notification ∧ r.telepathyErrorNotified = false ∧
      r.mNotificationInd = some n
  pendingRdl : ∀ n, n ∈ s.pending → n.redownloadOfUUID = ""
  pendingNodup : (s.pending.map MNotificationInd.uuid).Nodup
  regPendingDisjoint : ∀ tid u, sfind s.registry tid = some u →
      ∀ n, n ∈ s.pending → n.uuid ≠ u
  regRec : ∀ tid u, sfind s.registry tid = some u → tid ≠ "" ∧
      (sfind s.store u = none ∨ ∃ r m, sfind s.store u = some r ∧
        r.mNotificationInd = some m ∧ m.transactionId = tid ∧ m.uuid = u)
  regT : ∀ u, sfind s.registry T = some u → surfaceCount T s.events = 1 ∧
      ∃ r, sfind s.store u = some r ∧ r.telepathyErrorNotified = true
  noRegT : sfind s.registry T = none → surfaceCount T s.events = 0

/-- Inductive invariant for claim C4 under the deliver-once trace
constraint: well-formedness of the store (every record holds its keying
notification), freshness bookkeeping through `used`, coupling of pending
notifications with their store records, and the registry condition —
every entry has a non-empty key and points at a missing record or at one
whose notification carries the entry's transaction id and whose state is
not responded. -/
structure C4Inv (s : TraceState) : Prop where
  storeNotif : ∀ u r, sfind s.store u = some r →
      ∃ m, r.mNotificationInd = some m ∧ m.uuid = u
  usedStore : ∀ u r, sfind s.store u = some r → u ∈ s.used
  usedReg : ∀ t u, sfind s.registry t = some u → u ∈ s.used
  usedPending : ∀ n, n ∈ s.pending → n.uuid ∈ s.used
  usedDelivered : ∀ u, u ∈ s.delivered → u ∈ s.used
  pendingTid : ∀ n, n ∈ s.pending → ∀ r m, sfind s.store n.uuid = some r →
      r.mNotificationInd = some m → m.transactionId = n.transactionId
  pendingState : ∀ n, n ∈ s.pending → n.uuid ∉ s.delivered →
      ∀ r, sfind s.store n.uuid = some r → r.state = .notification
  regWF : ∀ t u, sfind s.registry t = some u → t ≠ "" ∧
      (sfind s.store u = none ∨ ∃ r m, sfind s.store u = some r ∧
        r.mNotificationInd = some m ∧ m.transactionId = t ∧ r.state ≠ .responded)

/- ### Theorems -/

theorem sfind_sput_self {α : Type} (l : List (String × α)) (k : String) (v : α) :
    sfind (sput l k v) k = some v := by
  induction l with
  | nil => simp [sput, sfind]
  | cons h t ih =>
    obtain ⟨k0, v0⟩ := h
    by_cases hk : k0 = k
    · simp [sput, sfind, hk]
    · simp [sput, sfind, hk, ih]

theorem sfind_sput_ne {α : Type} (l : List (String × α)) (k key : String) (v : α)
    (h : key ≠ k) : sfind (sput l k v) key = sfind l key := by
  induction l with
  | nil => simp [sput, sfind, Ne.symm h]
  | cons hd t ih =>
    obtain ⟨k0, v0⟩ := hd
    by_cases hk : k0 = k
    · subst hk
      simp [sput, sfind, Ne.symm h]
    · by_cases hk2 : k0 = key
      · simp [sput, sfind, hk, hk2, h]
      · simp [sput, sfind, hk, hk2, ih]

theorem sfind_sdel_self {α : Type} (l : List (String × α)) (k : String) :
    sfind (sdel l k) k = none := by
  induction l with
  | nil => simp [sdel, sfind]
  | cons hd t ih =>
    obtain ⟨k0, v0⟩ := hd
    by_cases hk : k0 = k
    · simp [sdel, hk, ih]
    · simp [sdel, sfind, hk, ih]

theorem sfind_sdel_ne {α : Type} (l : List (String × α)) (k key : String)
    (h : key ≠ k) : sfind (sdel l k) key = sfind l key := by
  induction l with
  | nil => simp [sdel]
  | cons hd t ih =>
    obtain ⟨k0, v0⟩ := hd
    by_cases hk : k0 = k
    · subst hk
      simp [sdel, sfind, Ne.symm h, ih]
    · by_cases hk2 : k0 = key
      · simp [sdel, sfind, hk, hk2, h]
      · simp [sdel, sfind, hk, hk2, ih]

theorem fmtRFC3339_ne_empty (t : Nat) : fmtRFC3339 t ≠ "" := by
  intro h
  have hl := congrArg String.length h
  rw [fmtRFC3339] at hl
  rw [String.length_append] at hl
  simp at hl
  exact absurd hl.1 (by decide)

theorem bool_if_and (b1 b2 : Bool) : (if b1 && b2 then false else b1) = (b1 && !b2) := by
  cases b1 <;> cases b2 <;> rfl

theorem failAdded_chan (identity : String) (n : MNotificationInd) (e : DownloadErrInfo)
    (md : Option Bool) (now : Nat) :
    (IncomingMessageFailAdded identity n e md now).redownloadChanPresent =
      (e.allowRedownload.getD false && !(expired n now)) := by
  dsimp only [IncomingMessageFailAdded]
  simp only [bool_if_and]

theorem failAdded_props_error (identity : String) (n : MNotificationInd) (e : DownloadErrInfo)
    (md : Option Bool) (now : Nat) :
    sfind (IncomingMessageFailAdded identity n e md now).props "Error" =
      some (.payload
        { code := e.code.getD unknownErrorCode, message := e.message,
          expire := some (fmtRFC3339 n.expire),
          size := if n.size = 0 then none else some n.size,
          mobileData := md }) := by
  dsimp only [IncomingMessageFailAdded]
  rw [if_neg (fmtRFC3339_ne_empty n.expire)]
  split
  · split
    · rw [sfind_sput_ne _ _ _ _ (by decide), sfind_sput_ne _ _ _ _ (by decide),
        sfind_sput_ne _ _ _ _ (by decide), sfind_sput_self]
    · rw [sfind_sput_ne _ _ _ _ (by decide), sfind_sput_ne _ _ _ _ (by decide),
        sfind_sput_self]
  · split
    · rw [sfind_sput_ne _ _ _ _ (by decide), sfind_sput_ne _ _ _ _ (by decide),
        sfind_sput_self]
    · rw [sfind_sput_ne _ _ _ _ (by decide), sfind_sput_self]

theorem failAdded_props_allow (identity : String) (n : MNotificationInd) (e : DownloadErrInfo)
    (md : Option Bool) (now : Nat) :
    sfind (IncomingMessageFailAdded identity n e md now).props "AllowRedownload" =
      some (.boolean (e.allowRedownload.getD false && !(expired n now))) := by
  dsimp only [IncomingMessageFailAdded]
  simp only [bool_if_and]
  split
  · split
    · rw [sfind_sput_ne _ _ _ _ (by decide), sfind_sput_ne _ _ _ _ (by decide),
        sfind_sput_self]
    · rw [sfind_sput_ne _ _ _ _ (by decide), sfind_sput_self]
  · split
    · rw [sfind_sput_ne _ _ _ _ (by decide), sfind_sput_self]
    · rw [sfind_sput_self]

theorem failAdded_props_deleteEvent (identity : String) (n : MNotificationInd)
    (e : DownloadErrInfo) (md : Option Bool) (now : Nat) (h : n.redownloadOfUUID ≠ "") :
    sfind (IncomingMessageFailAdded identity n e md now).props "DeleteEvent" =
      some (.str (genMessagePath identity n.redownloadOfUUID)) := by
  dsimp only [IncomingMessageFailAdded]
  rw [if_pos h]
  split
  · rw [sfind_sput_ne _ _ _ _ (by decide), sfind_sput_self]
  · rw [sfind_sput_self]

theorem addedProps_deleteEvent (identity : String) (m : MRetrieveConf)
    (n : MNotificationInd) (cp : Option String) (path : String)
    (props : List (String × Variant)) (h : n.redownloadOfUUID ≠ "")
    (hsome : IncomingMessageAddedProps identity m n cp = some (path, props)) :
    sfind props "DeleteEvent" = some (.str (genMessagePath identity n.redownloadOfUUID)) := by
  dsimp only [IncomingMessageAddedProps] at hsome
  rcases hpm : parseMessage identity m cp with _ | pl
  · rw [hpm] at hsome
    exact absurd hsome (by simp)
  · rw [hpm] at hsome
    dsimp only at hsome
    rw [if_pos h] at hsome
    split at hsome
    · simp only [Option.some.injEq, Prod.mk.injEq] at hsome
      obtain ⟨h1, h2⟩ := hsome
      subst h2
      rw [sfind_sput_ne _ _ _ _ (by decide), sfind_sput_self]
    · simp only [Option.some.injEq, Prod.mk.injEq] at hsome
      obtain ⟨h1, h2⟩ := hsome
      subst h2
      rw [sfind_sput_self]

/-- C7: `IncomingMessageFailAdded` creates a surface whose redownload
channel is present iff the error allows redownload and the notification
has not expired; the broadcast properties carry the Error payload (code,
message, optional expire/size/mobile-data), an AllowRedownload flag equal
to that same condition, and — when the notification carries a
redownload_of back-reference — a DeleteEvent naming the prior surface
path. -/
theorem C7_fail_surface (identity : String) (n : MNotificationInd) (e : DownloadErrInfo)
    (md : Option Bool) (now : Nat) :
    (IncomingMessageFailAdded identity n e md now).redownloadChanPresent =
      (e.allowRedownload.getD false && !(expired n now)) ∧
    sfind (IncomingMessageFailAdded identity n e md now).props "Error" =
      some (.payload
        { code := e.code.getD unknownErrorCode, message := e.message,
          expire := some (fmtRFC3339 n.expire),
          size := if n.size = 0 then none else some n.size,
          mobileData := md }) ∧
    sfind (IncomingMessageFailAdded identity n e md now).props "AllowRedownload" =
      some (.boolean (e.allowRedownload.getD false && !(expired n now))) ∧
    (n.redownloadOfUUID ≠ "" →
      sfind (IncomingMessageFailAdded identity n e md now).props "DeleteEvent" =
        some (.str (genMessagePath identity n.redownloadOfUUID))) := by
  exact ⟨failAdded_chan identity n e md now, failAdded_props_error identity n e md now,
    failAdded_props_allow identity n e md now,
    fun h => failAdded_props_deleteEvent identity n e md now h⟩

/-- C9: the MmsEnabled query returns true on every failure path (dbus
connection, user lookup, property get, reply decode), and returns false
exactly when every step succeeds and the accounts service reports the
flag as false. -/
theorem C9_mms_enabled (env : DbusEnv) :
    ((env.connectOk = false ∨ env.userOk = false ∨ env.getCallOk = false ∨
      env.argsOk = false) → mmsEnabled env = true) ∧
    (mmsEnabled env = false ↔
      env.connectOk = true ∧ env.userOk = true ∧ env.getCallOk = true ∧
      env.argsOk = true ∧ env.mmsValue = false) := by
  obtain ⟨c, u, g, a, v⟩ := env
  cases c <;> cases u <;> cases g <;> cases a <;> cases v <;> decide

/-- C8: for an outbound send whose upload succeeds and whose response
decodes to an M-Send.conf, the emitted status is sent / permanent-error /
transient-error by the conf's status; in all cases the surface is
destroyed and the scratch files (request, and the response when the
upload produced one) are removed. -/
theorem C8_send_status (env : SendReqEnv) (reqFile : String) :
    (∀ confFile conf, env.uploadResult = some confFile → env.decodeResult = some conf →
      (sendMSendReq env reqFile).statusEmitted = some (match conf.status with
        | none => SENT
        | some .permanent => PERMANENT_ERROR
        | some .transient => TRANSIENT_ERROR)) ∧
    (sendMSendReq env reqFile).surfaceDestroyed = true ∧
    reqFile ∈ (sendMSendReq env reqFile).removedFiles ∧
    (∀ confFile, env.uploadResult = some confFile →
      confFile ∈ (sendMSendReq env reqFile).removedFiles) := by
  obtain ⟨up, dec⟩ := env
  refine ⟨?_, ?_, ?_, ?_⟩
  · intro confFile conf h1 h2
    cases up with
    | none => exact absurd h1 (by simp)
    | some c =>
      cases dec with
      | none => exact absurd h2 (by simp)
      | some d =>
        simp only [Option.some.injEq] at h1 h2
        subst h1; subst h2
        rcases hs : d.status with _ | se
        · simp [sendMSendReq, hs]
        · cases se <;> simp [sendMSendReq, hs]
  · cases up <;> cases dec <;> simp [sendMSendReq]
  · cases up <;> cases dec <;> simp [sendMSendReq]
  · intro confFile h1
    cases up with
    | none => exact absurd h1 (by simp)
    | some c =>
      simp only [Option.some.injEq] at h1
      subst h1
      cases dec <;> simp [sendMSendReq]

/-- C6 (amended): a user delete request is refused exactly when the
backing record exists, holds a notification, is in any state other than
responded, and the notification has not expired — not only in state
notification as the spec says; when not refused, the delete closes the
surface, destroys the record and broadcasts removal. -/
theorem C6_delete_policy (s : TraceState) (uuid : String) (now : Nat) :
    (deleteRefused (storageGetMMSState s.store uuid) now = true ↔
      ∃ r nf, sfind s.store uuid = some r ∧ r.mNotificationInd = some nf ∧
        r.state ≠ .responded ∧ expired nf now = false) ∧
    (deleteRefused (storageGetMMSState s.store uuid) now = false →
      deleteStep s uuid now = (messageRemoved s uuid).1) ∧
    (deleteRefused (storageGetMMSState s.store uuid) now = false → uuid ∈ s.handlers →
      deleteStep s uuid now =
        { s with handlers := s.handlers.erase uuid,
                 store := storageDestroy s.store uuid,
                 events := s.events ++ [.removed uuid] }) := by
  refine ⟨?_, ?_, ?_⟩
  · rcases hr : sfind s.store uuid with _ | r
    · simp [deleteRefused, storageGetMMSState, hr]
    · rcases hn : r.mNotificationInd with _ | nf
      · simp [deleteRefused, storageGetMMSState, hr, hn]
      · simp [deleteRefused, storageGetMMSState, hr, hn, bne_iff_ne]
  · intro h
    simp [deleteStep, h]
  · intro h h2
    simp [deleteStep, h, messageRemoved, h2]

/-- C10: a redownload request is honoured only when the record exists,
is in state notification and holds a notification — otherwise the state
is returned unchanged; when honoured, the old surface is removed and a
fresh-UUID record back-referencing the old one is created and queued. -/
theorem C10_redownload_guard (s : TraceState) (uuid freshUuid : String) :
    ((sfind s.store uuid = none ∨
      (∃ r, sfind s.store uuid = some r ∧ r.state ≠ .notification) ∨
      (∃ r, sfind s.store uuid = some r ∧ r.mNotificationInd = none)) →
      redownloadStep s uuid freshUuid = s) ∧
    (∀ r stored, freshUuid ∉ s.used → sfind s.store uuid = some r →
      r.state = .notification → r.mNotificationInd = some stored →
      redownloadStep s uuid freshUuid =
        { (messageRemoved s uuid).1 with
            store := storageCreate (messageRemoved s uuid).1.store r.modemId
              { stored with redownloadOfUUID := stored.uuid, uuid := freshUuid },
            pending := (messageRemoved s uuid).1.pending ++
              [{ stored with redownloadOfUUID := stored.uuid, uuid := freshUuid }],
            used := freshUuid :: (messageRemoved s uuid).1.used }) := by
  constructor
  · intro h
    by_cases hf : freshUuid ∈ s.used
    · simp [redownloadStep, hf]
    · rcases h with h | ⟨r, hr, hs⟩ | ⟨r, hr, hn⟩
      · simp [redownloadStep, hf, h]
      · simp [redownloadStep, hf, hr, hs]
      · by_cases hs : r.state = MState.notification
        · simp [redownloadStep, hf, hr, hs, hn]
        · simp [redownloadStep, hf, hr, hs]
  · intro r stored hf hr hs hn
    simp [redownloadStep, hf, hr, hs, hn]

/-- C2: for a non-empty transaction id — absent from the registry: insert
pointing at the new UUID, Received kept; present but pointing at a
missing record: re-point to the new UUID; present with a live record:
leave the pointer and rewrite Received to the stored first-push
timestamp. -/
theorem C2_registry_rules (registry : List (String × String)) (store : Store)
    (n : MNotificationInd) (ht : n.transactionId ≠ "") :
    (sfind registry n.transactionId = none →
      registerTransaction registry store n = sput registry n.transactionId n.uuid ∧
      adjustReceived registry store n = n) ∧
    (∀ u, sfind registry n.transactionId = some u → sfind store u = none →
      registerTransaction registry store n = sput registry n.transactionId n.uuid ∧
      adjustReceived registry store n = n) ∧
    (∀ u r stored, sfind registry n.transactionId = some u → sfind store u = some r →
      r.mNotificationInd = some stored →
      registerTransaction registry store n = registry ∧
      adjustReceived registry store n = { n with received := stored.received }) := by
  refine ⟨?_, ?_, ?_⟩
  · intro h
    constructor
    · simp [registerTransaction, ht, h]
    · simp [adjustReceived, ht, h]
  · intro u h hst
    constructor
    · simp [registerTransaction, ht, h, hst]
    · simp [adjustReceived, ht, h, hst]
  · intro u r stored h hst hn
    constructor
    · simp [registerTransaction, ht, h, hst]
    · simp [adjustReceived, ht, h, hst, hn]

/-- C5: after a user redownload on UUID `uuid`, a fresh record keyed by
`freshUuid` exists whose notification carries `redownload_of = uuid` and
the other fields of the stored notification, the old surface is removed
(record destroyed, removal broadcast), the new notification is queued,
and any later surface for the new UUID (failure or success) carries a
DeleteEvent naming the old message path. -/
theorem C5_redownload (s : TraceState) (identity uuid freshUuid : String)
    (r : MMSState) (stored : MNotificationInd)
    (hne : uuid ≠ "") (hneq : freshUuid ≠ uuid) (hfresh : freshUuid ∉ s.used)
    (hh : uuid ∈ s.handlers) (hnd : s.handlers.Nodup)
    (hr : sfind s.store uuid = some r) (hst : r.state = .notification)
    (hn : r.mNotificationInd = some stored) (hu : stored.uuid = uuid) :
    sfind (redownloadStep s uuid freshUuid).store freshUuid =
      some { modemId := r.modemId, state := .notification,
             mNotificationInd := some { stored with redownloadOfUUID := uuid, uuid := freshUuid },
             telepathyErrorNotified := false, contentPath := "" } ∧
    sfind (redownloadStep s uuid freshUuid).store uuid = none ∧
    uuid ∉ (redownloadStep s uuid freshUuid).handlers ∧
    (redownloadStep s uuid freshUuid).events = s.events ++ [.removed uuid] ∧
    (redownloadStep s uuid freshUuid).pending =
      s.pending ++ [{ stored with redownloadOfUUID := uuid, uuid := freshUuid }] ∧
    (∀ e md now, sfind (IncomingMessageFailAdded identity
        { stored with redownloadOfUUID := uuid, uuid := freshUuid } e md now).props
        "DeleteEvent" = some (.str (genMessagePath identity uuid))) ∧
    (∀ m cp path props, IncomingMessageAddedProps identity m
        { stored with redownloadOfUUID := uuid, uuid := freshUuid } cp = some (path, props) →
      sfind props "DeleteEvent" = some (.str (genMessagePath identity uuid))) := by
  have hstep : redownloadStep s uuid freshUuid =
      { (messageRemoved s uuid).1 with
          store := storageCreate (messageRemoved s uuid).1.store r.modemId
            { stored with redownloadOfUUID := stored.uuid, uuid := freshUuid },
          pending := (messageRemoved s uuid).1.pending ++
            [{ stored with redownloadOfUUID := stored.uuid, uuid := freshUuid }],
          used := freshUuid :: (messageRemoved s uuid).1.used } := by
    simp [redownloadStep, hfresh, hr, hst, hn]
  rw [hstep]
  rw [hu]
  refine ⟨?_, ?_, ?_, ?_, ?_, ?_, ?_⟩
  · simp [messageRemoved, hh, storageCreate, sfind_sput_self]
  · simp [messageRemoved, hh, storageCreate, storageDestroy]
    rw [sfind_sput_ne _ _ _ _ (Ne.symm hneq)]
    exact sfind_sdel_self s.store uuid
  · simp [messageRemoved, hh]
    exact hnd.not_mem_erase
  · simp [messageRemoved, hh]
  · simp [messageRemoved, hh]
  · intro e md now
    exact failAdded_props_deleteEvent identity _ e md now hne
  · intro m cp path props hsome
    exact addedProps_deleteEvent identity m _ cp path props hne hsome

/- Counterexamples and witnesses -/

theorem C1_counterexample :
    (c1Trace.all fun st =>
      match st with
      | .push _ _ => true
      | .deliverIdx _ _ => true
      | _ => false) = true ∧
    surfaceCount "T" (runTrace (startState []) c1Trace).events = 2 := by decide

/-- C3 (evidence of the code bug): in the supersession path of
handleMessageDownloadError (prior registry entry "A" superseded by the
new notification "B"), removing the prior surface succeeds and the code
then destroys the NEW record: afterwards the registry points "T" at "B"
but storage holds neither "A" nor "B", contradicting the claim that the
new notification's store record is kept. -/
theorem C3_evidence :
    (handleMessageDownloadError c3Start wNotifB true).events =
      [.failAdded "T" "B", .removed "A"] ∧
    sfind (handleMessageDownloadError c3Start wNotifB true).store "A" = none ∧
    sfind (handleMessageDownloadError c3Start wNotifB true).registry "T" = some "B" ∧
    sfind (handleMessageDownloadError c3Start wNotifB true).store "B" = none := by decide

/-- C4 (counterexample to the literal claim): when startup reconciliation
re-feeds a pending notification that is also still queued, delivering the
queued copy twice (success, then failure) leaves the registry pointing
"T" at record "A" whose state is responded. -/
theorem C4_counterexample :
    sfind (runTrace (startState []) c4Trace).registry "T" = some "A" ∧
    (sfind (runTrace (startState []) c4Trace).store "A").map MMSState.state =
      some MState.responded := by decide

/-- C6 (counterexample to the literal claim): a delete on a record in
state downloaded (not notification) with an unexpired notification is
also refused, so the refusal condition is wider than the spec states. -/
theorem C6_counterexample :
    deleteRefused (some ⟨"m", .downloaded, some wNotifA, false, "p"⟩) 0 = true ∧
    MState.downloaded ≠ MState.notification := by decide

/-- Witness instantiating C2_registry_rules at a concrete registry and
store. -/
theorem C2_witness :
    registerTransaction c2Reg c2Store wNotifB = c2Reg ∧
    adjustReceived c2Reg c2Store wNotifB = { wNotifB with received := 5 } :=
  (C2_registry_rules c2Reg c2Store wNotifB (by decide)).2.2 "A" wRecA wNotifA
    (by decide) (by decide) (by decide)

/-- Witness instantiating C6_delete_policy at a concrete state. -/
theorem C6_witness :
    deleteStep c6WS "A" 200 =
      { c6WS with handlers := c6WS.handlers.erase "A",
                  store := storageDestroy c6WS.store "A",
                  events := c6WS.events ++ [.removed "A"] } :=
  (C6_delete_policy c6WS "A" 200).2.2 (by decide) (by decide)

/-- Witness instantiating C7_fail_surface at a concrete notification. -/
theorem C7_witness :
    sfind (IncomingMessageFailAdded "i" c7N ⟨some "c", some true, "boom"⟩ none 0).props
      "DeleteEvent" = some (.str (genMessagePath "i" "A")) :=
  (C7_fail_surface "i" c7N ⟨some "c", some true, "boom"⟩ none 0).2.2.2 (by decide)

/-- Witness instantiating C8_send_status at a concrete send environment. -/
theorem C8_witness :
    (sendMSendReq ⟨some "conf", some ⟨some .permanent⟩⟩ "req").statusEmitted =
      some PERMANENT_ERROR :=
  (C8_send_status ⟨some "conf", some ⟨some .permanent⟩⟩ "req").1 "conf"
    ⟨some .permanent⟩ rfl rfl

/-- Witness instantiating C9_mms_enabled at a concrete environment. -/
theorem C9_witness : mmsEnabled ⟨false, true, true, true, false⟩ = true :=
  (C9_mms_enabled ⟨false, true, true, true, false⟩).1 (Or.inl rfl)

/-- Witness instantiating C10_redownload_guard at a concrete state. -/
theorem C10_witness : redownloadStep c6WS "X" "F" = c6WS :=
  (C10_redownload_guard c6WS "X" "F").1 (Or.inl (by decide))

/-- Witness instantiating C5_redownload at a concrete state. -/
theorem C5_witness :
    sfind (redownloadStep c6WS "A" "F").store "F" =
      some { modemId := "m", state := .notification,
             mNotificationInd := some { wNotifA with redownloadOfUUID := "A", uuid := "F" },
             telepathyErrorNotified := false, contentPath := "" } ∧
    sfind (IncomingMessageFailAdded "i"
        { wNotifA with redownloadOfUUID := "A", uuid := "F" } ⟨none, none, "x"⟩ none 0).props
      "DeleteEvent" = some (.str (genMessagePath "i" "A")) := by
  have h := C5_redownload c6WS "i" "A" "F" wRecA wNotifA (by decide) (by decide) (by decide)
    (by decide) (by decide) (by decide) (by decide) (by decide) (by decide)
  exact ⟨h.1, h.2.2.2.2.2.1 ⟨none, none, "x"⟩ none 0⟩

theorem c1Inv_start (T : String) : C1Inv T (startState []) := by
  constructor <;> simp [startState, sfind, surfaceCount]

theorem nodup_eraseIdx_ne {α β : Type} (f : α → β) :
    ∀ (l : List α) (i : Nat) (a : α), (l.map f).Nodup → l[i]? = some a →
      ∀ b, b ∈ l.eraseIdx i → f b ≠ f a := by
  intro l
  induction l with
  | nil => intro i a _ h; simp at h
  | cons x t ih =>
    intro i a hnd h b hb
    cases i with
    | zero =>
      simp at h
      subst h
      simp [List.eraseIdx] at hb
      simp at hnd
      intro he
      exact hnd.1 b hb he
    | succ j =>
      simp at h
      simp [List.eraseIdx] at hb
      simp at hnd
      rcases hb with hb | hb
      · subst hb
        intro he
        have : a ∈ t := by
          have := List.getElem?_eq_some_iff.mp h
          obtain ⟨hlt, hget⟩ := this
          exact hget ▸ List.getElem_mem hlt
        exact hnd.1 a this he.symm
      · exact ih j a hnd.2 h b hb

theorem mem_of_pendingIdx {l : List MNotificationInd} {i : Nat} {n : MNotificationInd}
    (h : l[i]? = some n) : n ∈ l := by
  have := List.getElem?_eq_some_iff.mp h
  obtain ⟨hlt, hget⟩ := this
  exact hget ▸ List.getElem_mem hlt

theorem mem_of_eraseIdx {l : List MNotificationInd} {i : Nat} {n : MNotificationInd}
    (h : n ∈ l.eraseIdx i) : n ∈ l :=
  (List.eraseIdx_sublist l i).mem h

theorem hmde_drop (s : TraceState) (n : MNotificationInd) (u : String) (r : MMSState)
    (addOk : Bool) (h1 : n.transactionId ≠ "") (h2 : n.redownloadOfUUID = "")
    (h3 : sfind s.registry n.transactionId = some u) (h4 : u ≠ n.uuid)
    (h5 : sfind s.store u = some r)
    (h6 : r.telepathyErrorNotified = true ∨ r.state = .received ∨ r.state = .responded) :
    handleMessageDownloadError s n addOk =
      { s with store := storageDestroy s.store n.uuid } := by
  have hd : ((n.transactionId != "") && (n.redownloadOfUUID == "")
      && priorDiffers (sfind s.registry n.transactionId) n.uuid) = true := by
    rw [h3]
    simp [priorDiffers, h1, h2, h4]
  have hps : (match sfind s.registry n.transactionId with
    | some u =>
        match sfind s.store u with
        | some r => r.telepathyErrorNotified || r.state == MState.received
            || r.state == MState.responded
        | none => false
    | none => false) = true := by
    rw [h3]
    dsimp only
    rw [h5]
    rcases h6 with h | h | h <;> simp [h]
  unfold handleMessageDownloadError
  dsimp only
  rw [hd, hps]
  simp

theorem hmde_no_prior (s : TraceState) (n : MNotificationInd) (r : MMSState)
    (hB : ((n.transactionId != "")
      && priorDiffers (sfind s.registry n.transactionId) n.uuid) = false)
    (hr : sfind s.store n.uuid = some r) :
    handleMessageDownloadError s n true =
      { s with handlers := addHandler s.handlers n.uuid,
               events := s.events ++ [.failAdded n.transactionId n.uuid],
               store := sput s.store n.uuid { r with telepathyErrorNotified := true } } := by
  have hA : ((n.transactionId != "") && (n.redownloadOfUUID == "")
      && priorDiffers (sfind s.registry n.transactionId) n.uuid) = false := by
    rcases Bool.and_eq_false_iff.mp hB with h | h
    · simp [h]
    · simp [h]
  unfold handleMessageDownloadError
  dsimp only
  rw [hA, hB]
  have hset : storageSetTelepathyErrorNotified s.store n.uuid =
      some (sput s.store n.uuid { r with telepathyErrorNotified := true }) := by
    rw [storageSetTelepathyErrorNotified, hr]
  rw [hset]
  simp

theorem adjustReceived_fields (registry : List (String × String)) (store : Store)
    (n : MNotificationInd) :
    (adjustReceived registry store n).uuid = n.uuid ∧
    (adjustReceived registry store n).transactionId = n.transactionId ∧
    (adjustReceived registry store n).redownloadOfUUID = n.redownloadOfUUID := by
  unfold adjustReceived
  split
  · exact ⟨rfl, rfl, rfl⟩
  · split
    · exact ⟨rfl, rfl, rfl⟩
    · split
      · split
        · exact ⟨rfl, rfl, rfl⟩
        · exact ⟨rfl, rfl, rfl⟩
      · exact ⟨rfl, rfl, rfl⟩

theorem c1_push (T : String) (s : TraceState) (modemId : String)
    (n : MNotificationInd) (h : C1Inv T s) : C1Inv T (pushStep s modemId n) := by
  by_cases hg : (n.uuid ∈ s.used ∨ n.redownloadOfUUID ≠ "")
  · have hstep : pushStep s modemId n = s := by
      unfold pushStep
      rw [if_pos hg]
    rw [hstep]
    exact h
  · push_neg at hg
    obtain ⟨hfresh, hrdl⟩ := hg
    have hstep : pushStep s modemId n =
        { s with store := storageCreate s.store modemId (adjustReceived s.registry s.store n),
                 pending := s.pending ++ [adjustReceived s.registry s.store n],
                 used := n.uuid :: s.used } := by
      unfold pushStep
      rw [if_neg (by push_neg; exact ⟨hfresh, hrdl⟩)]
    rw [hstep]
    obtain ⟨hn1u, hn1t, hn1r⟩ := adjustReceived_fields s.registry s.store n
    generalize hgen : adjustReceived s.registry s.store n = n1 at hstep hn1u hn1t hn1r ⊢
    constructor
    · -- usedStore
      intro u r hr
      simp only [storageCreate, hn1u] at hr
      by_cases hu : u = n.uuid
      · simp [hu]
      · rw [sfind_sput_ne _ _ _ _ hu] at hr
        exact List.mem_cons_of_mem _ (h.usedStore u r hr)
    · -- usedReg
      intro tid u hr
      exact List.mem_cons_of_mem _ (h.usedReg tid u hr)
    · -- usedPending
      intro m hm
      simp only [List.mem_append, List.mem_singleton] at hm
      rcases hm with hm | hm
      · exact List.mem_cons_of_mem _ (h.usedPending m hm)
      · subst hm
        rw [hn1u]
        exact List.mem_cons_self _ _
    · -- pendingRec
      intro m hm
      simp only [List.mem_append, List.mem_singleton] at hm
      rcases hm with hm | hm
      · obtain ⟨r, hr, hst, hnot, hmn⟩ := h.pendingRec m hm
        have hmu : m.uuid ≠ n.uuid := by
          intro he
          exact hfresh (he ▸ h.usedPending m hm)
        refine ⟨r, ?_, hst, hnot, hmn⟩
        simp only [storageCreate, hn1u]
        rw [sfind_sput_ne _ _ _ _ hmu]
        exact hr
      · subst hm
        refine ⟨⟨modemId, .notification, some m, false, ""⟩, ?_, rfl, rfl, rfl⟩
        simp only [storageCreate, hn1u]
        exact sfind_sput_self _ _ _
    · -- pendingRdl
      intro m hm
      simp only [List.mem_append, List.mem_singleton] at hm
      rcases hm with hm | hm
      · exact h.pendingRdl m hm
      · subst hm
        rw [hn1r, hrdl]
    · -- pendingNodup
      simp only [List.map_append, List.map_cons, List.map_nil]
      rw [List.nodup_append]
      refine ⟨h.pendingNodup, List.nodup_singleton _, ?_⟩
      intro x hx hx2
      simp only [List.mem_singleton] at hx2
      subst hx2
      rw [hn1u] at hx
      simp only [List.mem_map] at hx
      obtain ⟨m, hm, hmu⟩ := hx
      exact hfresh (hmu ▸ h.usedPending m hm)
    · -- regPendingDisjoint
      intro tid u hr m hm
      simp only [List.mem_append, List.mem_singleton] at hm
      rcases hm with hm | hm
      · exact h.regPendingDisjoint tid u hr m hm
      · subst hm
        rw [hn1u]
        intro he
        exact hfresh (he ▸ h.usedReg tid u hr)
    · -- regRec
      intro tid u hr
      obtain ⟨htid, hrest⟩ := h.regRec tid u hr
      refine ⟨htid, ?_⟩
      have hu : u ≠ n.uuid := by
        intro he
        exact hfresh (he ▸ h.usedReg tid u hr)
      simp only [storageCreate, hn1u]
      rw [sfind_sput_ne _ _ _ _ hu]
      exact hrest
    · -- regT
      intro u hr
      obtain ⟨hc, r, hsr, hnot⟩ := h.regT u hr
      refine ⟨hc, r, ?_, hnot⟩
      have hu : u ≠ n.uuid := by
        intro he
        exact hfresh (he ▸ h.usedReg T u hr)
      simp only [storageCreate, hn1u]
      rw [sfind_sput_ne _ _ _ _ hu]
      exact hsr
    · -- noRegT
      intro hr
      exact h.noRegT hr

theorem ghmrc_no_mark (s : TraceState) (n : MNotificationInd)
    (hM : ((n.transactionId != "") && (n.redownloadOfUUID == "")
        && priorDiffers (sfind s.registry n.transactionId) n.uuid) = false ∨
      (match sfind s.registry n.transactionId with
       | some u =>
           match sfind s.store u with
           | some r => r.telepathyErrorNotified
           | none => false
       | none => false) = false) :
    getAndHandleMRetrieveConf s n true true =
      (n, { s with handlers := addHandler s.handlers n.uuid, events := s.events ++ [.added n.transactionId n.uuid] }, true) := by
  unfold getAndHandleMRetrieveConf
  dsimp only
  rcases hM with hM | hM <;> rw [hM] <;> simp

theorem ghmrc_mark (s : TraceState) (n : MNotificationInd) (u : String) (r : MMSState)
    (h1 : n.transactionId ≠ "") (h2 : n.redownloadOfUUID = "")
    (h3 : sfind s.registry n.transactionId = some u) (h4 : u ≠ n.uuid)
    (h5 : sfind s.store u = some r) (h6 : r.telepathyErrorNotified = true) :
    getAndHandleMRetrieveConf s n true true =
      ({ n with redownloadOfUUID := u },
       (messageRemoved { s with handlers := addHandler s.handlers n.uuid, events := s.events ++ [.added n.transactionId n.uuid] } u).1, true) := by
  have hc : ((n.transactionId != "") && (n.redownloadOfUUID == "")
      && priorDiffers (sfind s.registry n.transactionId) n.uuid) = true := by
    rw [h3]
    simp [priorDiffers, h1, h2, h4]
  have hn : (match sfind s.registry n.transactionId with
    | some u =>
        match sfind s.store u with
        | some r => r.telepathyErrorNotified
        | none => false
    | none => false) = true := by
    rw [h3]
    dsimp only
    rw [h5]
    exact h6
  unfold getAndHandleMRetrieveConf
  dsimp only
  rw [hc, hn, h3]
  simp

theorem updateDownloaded_eq (st : Store) (uuid p : String) (r : MMSState)
    (hr : sfind st uuid = some r) (hs : r.state = .notification) :
    storageUpdateDownloaded st uuid p =
      some (sput st uuid { r with state := .downloaded, contentPath := p }) := by
  unfold storageUpdateDownloaded
  rw [hr]
  simp [hs]

theorem updateReceived_eq (st : Store) (uuid : String) (r : MMSState)
    (hr : sfind st uuid = some r) (hs : r.state = .downloaded) :
    storageUpdateReceived st uuid = some (sput st uuid { r with state := .received }) := by
  unfold storageUpdateReceived
  rw [hr]
  simp [hs]

theorem updateResponded_eq (st : Store) (uuid : String) (r : MMSState)
    (hr : sfind st uuid = some r) (hs : r.state = .received) :
    storageUpdateResponded st uuid = some (sput st uuid { r with state := .responded }) := by
  unfold storageUpdateResponded
  rw [hr]
  simp [hs]

theorem surfaceCount_append (T : String) (evs l : List Ev) :
    surfaceCount T (evs ++ l) = surfaceCount T evs + surfaceCount T l := by
  unfold surfaceCount
  rw [List.filter_append, List.length_append]

theorem surfaceCount_failAdded (T t u : String) :
    surfaceCount T [Ev.failAdded t u] = if t = T then 1 else 0 := by
  unfold surfaceCount isSurfaceEv
  by_cases h : t = T
  · simp [List.filter, h]
  · rw [if_neg h]
    simp [List.filter, beq_eq_false_iff_ne.mpr h]

theorem surfaceCount_added (T t u : String) :
    surfaceCount T [Ev.added t u] = if t = T then 1 else 0 := by
  unfold surfaceCount isSurfaceEv
  by_cases h : t = T
  · simp [List.filter, h]
  · rw [if_neg h]
    simp [List.filter, beq_eq_false_iff_ne.mpr h]

theorem surfaceCount_removed (T u : String) :
    surfaceCount T [Ev.removed u] = 0 := by
  simp [surfaceCount, isSurfaceEv, List.filter]

theorem mem_addHandler (hs : List String) (x y : String) :
    x ∈ addHandler hs y ↔ x = y ∨ x ∈ hs := by
  unfold addHandler
  split
  · rename_i hy
    constructor
    · intro h; exact Or.inr h
    · intro h; rcases h with h | h
      · exact h ▸ hy
      · exact h
  · simp [List.mem_cons]

theorem c1_glue (T : String) (s : TraceState) (n : MNotificationInd) (i : Nat)
    (hmem : s.pending[i]? = some n) (h : C1Inv T s)
    (stF : Store) (regF : List (String × String)) (hF : List String)
    (evF : List Ev) (dlF : List String)
    (hS1 : ∀ m, m ∈ s.pending.eraseIdx i → sfind stF m.uuid = sfind s.store m.uuid)
    (hS2 : ∀ k, k ≠ n.uuid → (sfind stF k = sfind s.store k ∨ sfind stF k = none))
    (hS3 : sfind stF n.uuid = none ∨ ∃ rF, sfind stF n.uuid = some rF ∧
      rF.mNotificationInd = some n)
    (hR1 : ∀ tid, tid ≠ n.transactionId → sfind regF tid = sfind s.registry tid)
    (hR2 : sfind regF n.transactionId = sfind s.registry n.transactionId ∨
      (n.transactionId ≠ "" ∧ sfind regF n.transactionId = some n.uuid) ∨
      sfind regF n.transactionId = none)
    (hTC : (sfind regF T = none ∧ surfaceCount T evF = 0) ∨
      (∃ uT rT, sfind regF T = some uT ∧ surfaceCount T evF = 1 ∧
        sfind stF uT = some rT ∧ rT.telepathyErrorNotified = true)) :
    C1Inv T { registry := regF, store := stF, handlers := hF,
              pending := s.pending.eraseIdx i, events := evF,
              used := s.used, delivered := dlF } := by
  have hnp : n ∈ s.pending := mem_of_pendingIdx hmem
  have hnu : n.uuid ∈ s.used := h.usedPending n hnp
  have herne : ∀ m, m ∈ s.pending.eraseIdx i → m.uuid ≠ n.uuid :=
    nodup_eraseIdx_ne MNotificationInd.uuid s.pending i n h.pendingNodup hmem
  constructor
  · -- usedStore
    intro u r hr
    by_cases hu : u = n.uuid
    · exact hu ▸ hnu
    · rcases hS2 u hu with h2 | h2
      · rw [h2] at hr
        exact h.usedStore u r hr
      · rw [h2] at hr
        exact absurd hr (by simp)
  · -- usedReg
    intro tid u hr
    by_cases htid : tid = n.transactionId
    · subst htid
      rcases hR2 with h2 | ⟨_, h2⟩ | h2
      · rw [h2] at hr
        exact h.usedReg _ u hr
      · rw [h2] at hr
        cases hr
        exact hnu
      · rw [h2] at hr
        exact absurd hr (by simp)
    · rw [hR1 tid htid] at hr
      exact h.usedReg tid u hr
  · -- usedPending
    intro m hm
    exact h.usedPending m (mem_of_eraseIdx hm)
  · -- pendingRec
    intro m hm
    obtain ⟨r, hr, hst, hnot, hmn⟩ := h.pendingRec m (mem_of_eraseIdx hm)
    exact ⟨r, (hS1 m hm) ▸ hr, hst, hnot, hmn⟩
  · -- pendingRdl
    intro m hm
    exact h.pendingRdl m (mem_of_eraseIdx hm)
  · -- pendingNodup
    exact h.pendingNodup.sublist (List.Sublist.map _ (List.eraseIdx_sublist _ _))
  · -- regPendingDisjoint
    intro tid u hr m hm
    by_cases htid : tid = n.transactionId
    · subst htid
      rcases hR2 with h2 | ⟨_, h2⟩ | h2
      · rw [h2] at hr
        exact h.regPendingDisjoint _ u hr m (mem_of_eraseIdx hm)
      · rw [h2] at hr
        cases hr
        exact herne m hm
      · rw [h2] at hr
        exact absurd hr (by simp)
    · rw [hR1 tid htid] at hr
      exact h.regPendingDisjoint tid u hr m (mem_of_eraseIdx hm)
  · -- regRec
    intro tid u hr
    have key : ∀ u2, sfind s.registry tid = some u2 → u = u2 →
        tid ≠ "" ∧ (sfind stF u = none ∨ ∃ r m, sfind stF u = some r ∧
          r.mNotificationInd = some m ∧ m.transactionId = tid ∧ m.uuid = u) := by
      intro u2 hold heq
      subst heq
      obtain ⟨htid, hrest⟩ := h.regRec tid u hold
      refine ⟨htid, ?_⟩
      have hune : u ≠ n.uuid := fun he =>
        (h.regPendingDisjoint tid u hold n hnp) he.symm
      rcases hS2 u hune with h2 | h2
      · rw [h2]
        exact hrest
      · exact Or.inl h2
    by_cases htid : tid = n.transactionId
    · subst htid
      rcases hR2 with h2 | ⟨hne, h2⟩ | h2
      · rw [h2] at hr
        exact key u hr rfl
      · rw [h2] at hr
        cases hr
        refine ⟨hne, ?_⟩
        rcases hS3 with h3 | ⟨rF, h3, h4⟩
        · exact Or.inl h3
        · exact Or.inr ⟨rF, n, h3, h4, rfl, rfl⟩
      · rw [h2] at hr
        exact absurd hr (by simp)
    · rw [hR1 tid htid] at hr
      exact key u hr rfl
  · -- regT
    intro u hr
    rcases hTC with ⟨h1, _⟩ | ⟨uT, rT, h1, h2, h3, h4⟩
    · rw [h1] at hr
      exact absurd hr (by simp)
    · rw [h1] at hr
      cases hr
      exact ⟨h2, rT, h3, h4⟩
  · -- noRegT
    intro hr
    rcases hTC with ⟨_, h2⟩ | ⟨uT, rT, h1, _, _, _⟩
    · exact h2
    · rw [h1] at hr
      exact absurd hr (by simp)

theorem regtr_empty (reg : List (String × String)) (st : Store) (n : MNotificationInd)
    (ht : n.transactionId = "") : registerTransaction reg st n = reg := by
  unfold registerTransaction
  rw [if_pos ht]

theorem regtr_insert (reg : List (String × String)) (st : Store) (n : MNotificationInd)
    (ht : n.transactionId ≠ "") (hu : sfind reg n.transactionId = none) :
    registerTransaction reg st n = sput reg n.transactionId n.uuid := by
  unfold registerTransaction
  rw [if_neg ht, hu]

theorem regtr_replace (reg : List (String × String)) (st : Store) (n : MNotificationInd)
    (u : String) (ht : n.transactionId ≠ "") (hu : sfind reg n.transactionId = some u)
    (hsu : sfind st u = none) :
    registerTransaction reg st n = sput reg n.transactionId n.uuid := by
  unfold registerTransaction
  rw [if_neg ht, hu]
  dsimp only
  rw [hsu]

theorem regtr_keep (reg : List (String × String)) (st : Store) (n : MNotificationInd)
    (u : String) (ru : MMSState) (ht : n.transactionId ≠ "")
    (hu : sfind reg n.transactionId = some u) (hsu : sfind st u = some ru) :
    registerTransaction reg st n = reg := by
  unfold registerTransaction
  rw [if_neg ht, hu]
  dsimp only
  rw [hsu]

theorem ghmrc_noDecode (s : TraceState) (n : MNotificationInd) (a : Bool) :
    getAndHandleMRetrieveConf s n false a = (n, s, false) := by
  unfold getAndHandleMRetrieveConf
  simp

theorem hmde_block_rm (s : TraceState) (n : MNotificationInd) (u : String)
    (ru r : MMSState) (h1 : n.transactionId ≠ "")
    (h3 : sfind s.registry n.transactionId = some u) (h4 : u ≠ n.uuid)
    (h5 : sfind s.store u = some ru) (h6 : ru.telepathyErrorNotified = false)
    (h7 : ru.state ≠ .received) (h8 : ru.state ≠ .responded)
    (hr : sfind s.store n.uuid = some r)
    (hh : u ∈ addHandler s.handlers n.uuid) :
    handleMessageDownloadError s n true =
      { s with handlers := (addHandler s.handlers n.uuid).erase u,
               events := (s.events ++ [.failAdded n.transactionId n.uuid]) ++ [.removed u],
               store := sdel (sdel (sput s.store n.uuid { r with telepathyErrorNotified := true }) u) n.uuid,
               registry := sput s.registry n.transactionId n.uuid } := by
  have hps : (match sfind s.registry n.transactionId with
    | some u =>
        match sfind s.store u with
        | some r => r.telepathyErrorNotified || r.state == MState.received
            || r.state == MState.responded
        | none => false
    | none => false) = false := by
    rw [h3]
    dsimp only
    rw [h5]
    dsimp only
    rw [h6]
    simp [h7, h8]
  have hB : ((n.transactionId != "")
      && priorDiffers (sfind s.registry n.transactionId) n.uuid) = true := by
    rw [h3]
    simp [priorDiffers, h1, h4]
  have hset : storageSetTelepathyErrorNotified s.store n.uuid =
      some (sput s.store n.uuid { r with telepathyErrorNotified := true }) := by
    rw [storageSetTelepathyErrorNotified, hr]
  unfold handleMessageDownloadError
  dsimp only
  rw [hps, hB, hset, h3]
  dsimp only
  rw [Bool.and_false]
  simp only [Bool.false_eq_true, if_false, Bool.not_true, if_true]
  unfold messageRemoved
  dsimp only
  rw [if_pos hh]
  dsimp only
  simp [storageDestroy]

theorem hmde_block_norm (s : TraceState) (n : MNotificationInd) (u : String)
    (ru r : MMSState) (h1 : n.transactionId ≠ "")
    (h3 : sfind s.registry n.transactionId = some u) (h4 : u ≠ n.uuid)
    (h5 : sfind s.store u = some ru) (h6 : ru.telepathyErrorNotified = false)
    (h7 : ru.state ≠ .received) (h8 : ru.state ≠ .responded)
    (hr : sfind s.store n.uuid = some r)
    (hh : u ∉ addHandler s.handlers n.uuid) :
    handleMessageDownloadError s n true =
      { s with handlers := addHandler s.handlers n.uuid,
               events := s.events ++ [.failAdded n.transactionId n.uuid],
               store := sput s.store n.uuid { r with telepathyErrorNotified := true },
               registry := sput s.registry n.transactionId n.uuid } := by
  have hps : (match sfind s.registry n.transactionId with
    | some u =>
        match sfind s.store u with
        | some r => r.telepathyErrorNotified || r.state == MState.received
            || r.state == MState.responded
        | none => false
    | none => false) = false := by
    rw [h3]
    dsimp only
    rw [h5]
    dsimp only
    rw [h6]
    simp [h7, h8]
  have hB : ((n.transactionId != "")
      && priorDiffers (sfind s.registry n.transactionId) n.uuid) = true := by
    rw [h3]
    simp [priorDiffers, h1, h4]
  have hset : storageSetTelepathyErrorNotified s.store n.uuid =
      some (sput s.store n.uuid { r with telepathyErrorNotified := true }) := by
    rw [storageSetTelepathyErrorNotified, hr]
  unfold handleMessageDownloadError
  dsimp only
  rw [hps, hB, hset, h3]
  dsimp only
  rw [Bool.and_false]
  simp only [Bool.false_eq_true, if_false, Bool.not_true, if_true]
  unfold messageRemoved
  dsimp only
  rw [if_neg hh]
  dsimp only
  simp

theorem c1_fail_path (T : String) (hT : T ≠ "") (s : TraceState) (n : MNotificationInd)
    (i : Nat) (hp : s.pending[i]? = some n) (h : C1Inv T s)
    (stb : Store) (rb : MMSState)
    (hstbn : sfind stb n.uuid = some rb) (hrbn : rb.mNotificationInd = some n)
    (hstb : ∀ k, k ≠ n.uuid → sfind stb k = sfind s.store k) :
    C1Inv T (handleMessageDownloadError
      { registry := registerTransaction s.registry s.store n, store := stb,
        handlers := s.handlers, pending := s.pending.eraseIdx i,
        events := s.events, used := s.used, delivered := n.uuid :: s.delivered } n true) := by
  have hnp : n ∈ s.pending := mem_of_pendingIdx hp
  have hrdl : n.redownloadOfUUID = "" := h.pendingRdl n hnp
  have herne : ∀ m, m ∈ s.pending.eraseIdx i → m.uuid ≠ n.uuid :=
    nodup_eraseIdx_ne MNotificationInd.uuid s.pending i n h.pendingNodup hp
  by_cases ht0 : n.transactionId = ""
  · -- no transaction id: the registry is untouched, the error is surfaced.
    rw [regtr_empty s.registry s.store n ht0]
    rw [hmde_no_prior _ n rb (by simp [ht0]) hstbn]
    refine c1_glue T s n i hp h _ _ _ _ _ ?_ ?_ ?_ ?_ ?_ ?_
    · intro m hm
      rw [sfind_sput_ne _ _ _ _ (herne m hm)]
      exact hstb m.uuid (herne m hm)
    · intro k hk
      rw [sfind_sput_ne _ _ _ _ hk]
      exact Or.inl (hstb k hk)
    · exact Or.inr ⟨_, sfind_sput_self _ _ _, hrbn⟩
    · intro tid _
      rfl
    · exact Or.inl rfl
    · rcases hrT : sfind s.registry T with _ | uT
      · refine Or.inl ⟨rfl, ?_⟩
        rw [surfaceCount_append, surfaceCount_failAdded,
          if_neg (by rw [ht0]; exact fun he => hT he.symm), h.noRegT hrT]
      · obtain ⟨hc, rT, hrT2, hnotT⟩ := h.regT uT hrT
        have huTn : uT ≠ n.uuid := fun he =>
          (h.regPendingDisjoint T uT hrT n hnp) he.symm
        refine Or.inr ⟨uT, rT, rfl, ?_, ?_, hnotT⟩
        · rw [surfaceCount_append, surfaceCount_failAdded,
            if_neg (by rw [ht0]; exact fun he => hT he.symm), hc]
        · rw [sfind_sput_ne _ _ _ _ huTn]
          rw [hstb uT huTn]
          exact hrT2
  · rcases hu : sfind s.registry n.transactionId with _ | u
    · -- fresh transaction id: inserted, then the error is surfaced for it.
      rw [regtr_insert s.registry s.store n ht0 hu]
      rw [hmde_no_prior _ n rb
        (by rw [show sfind (sput s.registry n.transactionId n.uuid) n.transactionId = some n.uuid
              from sfind_sput_self _ _ _]
            simp [priorDiffers]) hstbn]
      refine c1_glue T s n i hp h _ _ _ _ _ ?_ ?_ ?_ ?_ ?_ ?_
      · intro m hm
        rw [sfind_sput_ne _ _ _ _ (herne m hm)]
        exact hstb m.uuid (herne m hm)
      · intro k hk
        rw [sfind_sput_ne _ _ _ _ hk]
        exact Or.inl (hstb k hk)
      · exact Or.inr ⟨_, sfind_sput_self _ _ _, hrbn⟩
      · intro tid htid
        exact sfind_sput_ne _ _ _ _ htid
      · exact Or.inr (Or.inl ⟨ht0, sfind_sput_self _ _ _⟩)
      · by_cases htT : n.transactionId = T
        · have hrT : sfind s.registry T = none := htT ▸ hu
          refine Or.inr ⟨n.uuid, _, ?_, ?_, sfind_sput_self _ _ _, rfl⟩
          · rw [← htT]
            exact sfind_sput_self _ _ _
          · rw [surfaceCount_append, surfaceCount_failAdded, if_pos htT, h.noRegT hrT]
        · rw [sfind_sput_ne _ _ _ _ (fun he => htT he.symm)]
          rcases hrT : sfind s.registry T with _ | uT
          · refine Or.inl ⟨rfl, ?_⟩
            rw [surfaceCount_append, surfaceCount_failAdded, if_neg htT, h.noRegT hrT]
          · obtain ⟨hc, rT, hrT2, hnotT⟩ := h.regT uT hrT
            have huTn : uT ≠ n.uuid := fun he =>
              (h.regPendingDisjoint T uT hrT n hnp) he.symm
            refine Or.inr ⟨uT, rT, rfl, ?_, ?_, hnotT⟩
            · rw [surfaceCount_append, surfaceCount_failAdded, if_neg htT, hc]
            · rw [sfind_sput_ne _ _ _ _ huTn, hstb uT huTn]
              exact hrT2
    · rcases hsu2 : sfind s.store u with _ | ru
      · -- dangling entry: re-pointed, then the error is surfaced.
        rw [regtr_replace s.registry s.store n u ht0 hu hsu2]
        rw [hmde_no_prior _ n rb
          (by rw [show sfind (sput s.registry n.transactionId n.uuid) n.transactionId = some n.uuid
                from sfind_sput_self _ _ _]
              simp [priorDiffers]) hstbn]
        refine c1_glue T s n i hp h _ _ _ _ _ ?_ ?_ ?_ ?_ ?_ ?_
        · intro m hm
          rw [sfind_sput_ne _ _ _ _ (herne m hm)]
          exact hstb m.uuid (herne m hm)
        · intro k hk
          rw [sfind_sput_ne _ _ _ _ hk]
          exact Or.inl (hstb k hk)
        · exact Or.inr ⟨_, sfind_sput_self _ _ _, hrbn⟩
        · intro tid htid
          exact sfind_sput_ne _ _ _ _ htid
        · exact Or.inr (Or.inl ⟨ht0, sfind_sput_self _ _ _⟩)
        · by_cases htT : n.transactionId = T
          · exfalso
            obtain ⟨_, rT, hrT2, _⟩ := h.regT u (htT ▸ hu)
            rw [hsu2] at hrT2
            exact absurd hrT2 (by simp)
          · rw [sfind_sput_ne _ _ _ _ (fun he => htT he.symm)]
            rcases hrT : sfind s.registry T with _ | uT
            · refine Or.inl ⟨rfl, ?_⟩
              rw [surfaceCount_append, surfaceCount_failAdded, if_neg htT, h.noRegT hrT]
            · obtain ⟨hc, rT, hrT2, hnotT⟩ := h.regT uT hrT
              have huTn : uT ≠ n.uuid := fun he =>
                (h.regPendingDisjoint T uT hrT n hnp) he.symm
              refine Or.inr ⟨uT, rT, rfl, ?_, ?_, hnotT⟩
              · rw [surfaceCount_append, surfaceCount_failAdded, if_neg htT, hc]
              · rw [sfind_sput_ne _ _ _ _ huTn, hstb uT huTn]
                exact hrT2
      · -- live prior entry.
        rw [regtr_keep s.registry s.store n u ru ht0 hu hsu2]
        have hune : u ≠ n.uuid := fun he =>
          (h.regPendingDisjoint _ u hu n hnp) he.symm
        have hsub : sfind stb u = some ru := (hstb u hune).trans hsu2
        by_cases hsettled : ru.telepathyErrorNotified = true ∨ ru.state = .received ∨
            ru.state = .responded
        · -- the prior artifact already reached the user: silent drop.
          rw [hmde_drop (TraceState.mk s.registry stb s.handlers (s.pending.eraseIdx i) s.events s.used (n.uuid :: s.delivered)) n u ru true ht0 hrdl hu hune hsub hsettled]
          refine c1_glue T s n i hp h _ _ _ _ _ ?_ ?_ ?_ ?_ ?_ ?_
          · intro m hm
            rw [storageDestroy, sfind_sdel_ne _ _ _ (herne m hm)]
            exact hstb m.uuid (herne m hm)
          · intro k hk
            rw [storageDestroy, sfind_sdel_ne _ _ _ hk]
            exact Or.inl (hstb k hk)
          · exact Or.inl (sfind_sdel_self _ _)
          · intro tid _
            rfl
          · exact Or.inl rfl
          · rcases hrT : sfind s.registry T with _ | uT
            · exact Or.inl ⟨rfl, h.noRegT hrT⟩
            · obtain ⟨hc, rT, hrT2, hnotT⟩ := h.regT uT hrT
              have huTn : uT ≠ n.uuid := fun he =>
                (h.regPendingDisjoint T uT hrT n hnp) he.symm
              refine Or.inr ⟨uT, rT, rfl, hc, ?_, hnotT⟩
              rw [storageDestroy, sfind_sdel_ne _ _ _ huTn, hstb uT huTn]
              exact hrT2
        · have h6 : ru.telepathyErrorNotified = false := by
            cases hb : ru.telepathyErrorNotified
            · rfl
            · exact absurd (Or.inl hb) hsettled
          have h7 : ru.state ≠ .received := fun he => hsettled (Or.inr (Or.inl he))
          have h8 : ru.state ≠ .responded := fun he => hsettled (Or.inr (Or.inr he))
          have htT : n.transactionId ≠ T := by
            intro htT
            obtain ⟨_, rT, hrT2, hnotT⟩ := h.regT u (htT ▸ hu)
            rw [hsu2] at hrT2
            cases hrT2
            rw [hnotT] at h6
            exact absurd h6 (by simp)
          have huTu : ∀ uT rT, sfind s.registry T = some uT →
              sfind s.store uT = some rT → uT ≠ u := by
            intro uT rT hrT hrT2 he
            subst he
            obtain ⟨_, hrec⟩ := h.regRec T uT hrT
            rcases hrec with hrec | ⟨r1, m1, hr1, hm1, hmt1, _⟩
            · rw [hrT2] at hrec
              exact absurd hrec (by simp)
            · obtain ⟨_, hrec2⟩ := h.regRec n.transactionId uT hu
              rcases hrec2 with hrec2 | ⟨r2, m2, hr2, hm2, hmt2, _⟩
              · rw [hsu2] at hrec2
                exact absurd hrec2 (by simp)
              · rw [hr1] at hr2
                cases hr2
                rw [hm1] at hm2
                cases hm2
                exact htT (hmt2 ▸ hmt1)
          by_cases hh2 : u ∈ addHandler s.handlers n.uuid
          · rw [hmde_block_rm (TraceState.mk s.registry stb s.handlers (s.pending.eraseIdx i) s.events s.used (n.uuid :: s.delivered)) n u ru rb ht0 hu hune hsub h6 h7 h8 hstbn hh2]
            refine c1_glue T s n i hp h _ _ _ _ _ ?_ ?_ ?_ ?_ ?_ ?_
            · intro m hm
              have hmu : m.uuid ≠ u := fun he =>
                (h.regPendingDisjoint _ u hu m (mem_of_eraseIdx hm)) he
              rw [sfind_sdel_ne _ _ _ (herne m hm), sfind_sdel_ne _ _ _ hmu,
                sfind_sput_ne _ _ _ _ (herne m hm)]
              exact hstb m.uuid (herne m hm)
            · intro k hk
              rw [sfind_sdel_ne _ _ _ hk]
              by_cases hku : k = u
              · subst hku
                exact Or.inr (sfind_sdel_self _ _)
              · rw [sfind_sdel_ne _ _ _ hku, sfind_sput_ne _ _ _ _ hk]
                exact Or.inl (hstb k hk)
            · exact Or.inl (sfind_sdel_self _ _)
            · intro tid htid
              exact sfind_sput_ne _ _ _ _ htid
            · exact Or.inr (Or.inl ⟨ht0, sfind_sput_self _ _ _⟩)
            · rw [sfind_sput_ne _ _ _ _ (fun he => htT he.symm)]
              rcases hrT : sfind s.registry T with _ | uT
              · refine Or.inl ⟨rfl, ?_⟩
                rw [surfaceCount_append, surfaceCount_append, surfaceCount_failAdded,
                  surfaceCount_removed, if_neg htT, h.noRegT hrT]
              · obtain ⟨hc, rT, hrT2, hnotT⟩ := h.regT uT hrT
                have huTn : uT ≠ n.uuid := fun he =>
                  (h.regPendingDisjoint T uT hrT n hnp) he.symm
                have huTu2 : uT ≠ u := huTu uT rT hrT hrT2
                refine Or.inr ⟨uT, rT, rfl, ?_, ?_, hnotT⟩
                · rw [surfaceCount_append, surfaceCount_append, surfaceCount_failAdded,
                    surfaceCount_removed, if_neg htT, hc]
                · rw [sfind_sdel_ne _ _ _ huTn, sfind_sdel_ne _ _ _ huTu2,
                    sfind_sput_ne _ _ _ _ huTn, hstb uT huTn]
                  exact hrT2
          · rw [hmde_block_norm (TraceState.mk s.registry stb s.handlers (s.pending.eraseIdx i) s.events s.used (n.uuid :: s.delivered)) n u ru rb ht0 hu hune hsub h6 h7 h8 hstbn hh2]
            refine c1_glue T s n i hp h _ _ _ _ _ ?_ ?_ ?_ ?_ ?_ ?_
            · intro m hm
              rw [sfind_sput_ne _ _ _ _ (herne m hm)]
              exact hstb m.uuid (herne m hm)
            · intro k hk
              rw [sfind_sput_ne _ _ _ _ hk]
              exact Or.inl (hstb k hk)
            · exact Or.inr ⟨_, sfind_sput_self _ _ _, hrbn⟩
            · intro tid htid
              exact sfind_sput_ne _ _ _ _ htid
            · exact Or.inr (Or.inl ⟨ht0, sfind_sput_self _ _ _⟩)
            · rw [sfind_sput_ne _ _ _ _ (fun he => htT he.symm)]
              rcases hrT : sfind s.registry T with _ | uT
              · refine Or.inl ⟨rfl, ?_⟩
                rw [surfaceCount_append, surfaceCount_failAdded, if_neg htT, h.noRegT hrT]
              · obtain ⟨hc, rT, hrT2, hnotT⟩ := h.regT uT hrT
                have huTn : uT ≠ n.uuid := fun he =>
                  (h.regPendingDisjoint T uT hrT n hnp) he.symm
                refine Or.inr ⟨uT, rT, rfl, ?_, ?_, hnotT⟩
                · rw [surfaceCount_append, surfaceCount_failAdded, if_neg htT, hc]
                · rw [sfind_sput_ne _ _ _ _ huTn, hstb uT huTn]
                  exact hrT2

theorem messageRemoved_pos (s : TraceState) (u : String) (h : u ∈ s.handlers) :
    (messageRemoved s u).1 =
      { s with handlers := s.handlers.erase u,
               store := sdel s.store u,
               events := s.events ++ [.removed u] } := by
  unfold messageRemoved
  rw [if_pos h]
  simp [storageDestroy]

theorem messageRemoved_neg (s : TraceState) (u : String) (h : u ∉ s.handlers) :
    (messageRemoved s u).1 = s := by
  unfold messageRemoved
  rw [if_neg h]

theorem c1_success_path (T : String) (hT : T ≠ "") (s : TraceState) (n : MNotificationInd)
    (i : Nat) (hp : s.pending[i]? = some n) (h : C1Inv T s) (hTne : n.transactionId ≠ T)
    (rOk : Bool) :
    C1Inv T (deliver { s with pending := s.pending.eraseIdx i } n ⟨.success rOk, true⟩) := by
  have hnp : n ∈ s.pending := mem_of_pendingIdx hp
  have hrdl : n.redownloadOfUUID = "" := h.pendingRdl n hnp
  have herne : ∀ m, m ∈ s.pending.eraseIdx i → m.uuid ≠ n.uuid :=
    nodup_eraseIdx_ne MNotificationInd.uuid s.pending i n h.pendingNodup hp
  obtain ⟨r0, hr0, hst0, hnot0, hmn0⟩ := h.pendingRec n hnp
  unfold deliver
  dsimp only
  rw [updateDownloaded_eq s.store n.uuid ("content-" ++ n.uuid) r0 hr0 hst0]
  dsimp only
  by_cases ht0 : n.transactionId = ""
  · rw [regtr_empty s.registry s.store n ht0]
    rw [ghmrc_no_mark (TraceState.mk s.registry
        (sput s.store n.uuid { r0 with state := .downloaded, contentPath := "content-" ++ n.uuid })
        s.handlers (s.pending.eraseIdx i) s.events s.used (n.uuid :: s.delivered)) n
      (Or.inl (by simp [ht0]))]
    dsimp only
    rw [updateReceived_eq _ n.uuid _ (sfind_sput_self _ _ _) rfl]
    dsimp only
    cases rOk
    · rw [if_neg Bool.false_ne_true]
      refine c1_glue T s n i hp h _ _ _ _ _ ?_ ?_ ?_ ?_ ?_ ?_
      · intro m hm
        rw [sfind_sput_ne _ _ _ _ (herne m hm), sfind_sput_ne _ _ _ _ (herne m hm)]
      · intro k hk
        rw [sfind_sput_ne _ _ _ _ hk, sfind_sput_ne _ _ _ _ hk]
        exact Or.inl rfl
      · exact Or.inr ⟨_, sfind_sput_self _ _ _, hmn0⟩
      · intro tid _
        rfl
      · exact Or.inl rfl
      · rcases hrT : sfind s.registry T with _ | uT
        · refine Or.inl ⟨rfl, ?_⟩
          rw [surfaceCount_append, surfaceCount_added,
            if_neg (by rw [ht0]; exact fun he => hT he.symm), h.noRegT hrT]
        · obtain ⟨hc, rT, hrT2, hnotT⟩ := h.regT uT hrT
          have huTn : uT ≠ n.uuid := fun he =>
            (h.regPendingDisjoint T uT hrT n hnp) he.symm
          refine Or.inr ⟨uT, rT, rfl, ?_, ?_, hnotT⟩
          · rw [surfaceCount_append, surfaceCount_added,
              if_neg (by rw [ht0]; exact fun he => hT he.symm), hc]
          · rw [sfind_sput_ne _ _ _ _ huTn, sfind_sput_ne _ _ _ _ huTn]
            exact hrT2
    · rw [if_pos rfl]
      rw [updateResponded_eq _ n.uuid _ (sfind_sput_self _ _ _) rfl]
      dsimp only
      refine c1_glue T s n i hp h _ _ _ _ _ ?_ ?_ ?_ ?_ ?_ ?_
      · intro m hm
        rw [sfind_sput_ne _ _ _ _ (herne m hm), sfind_sput_ne _ _ _ _ (herne m hm),
          sfind_sput_ne _ _ _ _ (herne m hm)]
      · intro k hk
        rw [sfind_sput_ne _ _ _ _ hk, sfind_sput_ne _ _ _ _ hk, sfind_sput_ne _ _ _ _ hk]
        exact Or.inl rfl
      · exact Or.inr ⟨_, sfind_sput_self _ _ _, hmn0⟩
      · intro tid htid
        exact sfind_sdel_ne _ _ _ htid
      · exact Or.inr (Or.inr (sfind_sdel_self _ _))
      · rw [sfind_sdel_ne s.registry n.transactionId T (Ne.symm hTne)]
        rcases hrT : sfind s.registry T with _ | uT
        · refine Or.inl ⟨rfl, ?_⟩
          rw [surfaceCount_append, surfaceCount_added,
            if_neg (by rw [ht0]; exact fun he => hT he.symm), h.noRegT hrT]
        · obtain ⟨hc, rT, hrT2, hnotT⟩ := h.regT uT hrT
          have huTn : uT ≠ n.uuid := fun he =>
            (h.regPendingDisjoint T uT hrT n hnp) he.symm
          refine Or.inr ⟨uT, rT, rfl, ?_, ?_, hnotT⟩
          · rw [surfaceCount_append, surfaceCount_added,
              if_neg (by rw [ht0]; exact fun he => hT he.symm), hc]
          · rw [sfind_sput_ne _ _ _ _ huTn, sfind_sput_ne _ _ _ _ huTn,
              sfind_sput_ne _ _ _ _ huTn]
            exact hrT2
  · rcases hu : sfind s.registry n.transactionId with _ | u
    · -- fresh transaction id: inserted, pointing at this notification.
      rw [regtr_insert s.registry s.store n ht0 hu]
      rw [ghmrc_no_mark (TraceState.mk (sput s.registry n.transactionId n.uuid) (sput s.store n.uuid { r0 with state := .downloaded, contentPath := "content-" ++ n.uuid }) s.handlers (s.pending.eraseIdx i) s.events s.used (n.uuid :: s.delivered)) n (Or.inl (by rw [show sfind (sput s.registry n.transactionId n.uuid) n.transactionId = some n.uuid from sfind_sput_self _ _ _]; simp [priorDiffers]))]
      dsimp only
      rw [updateReceived_eq _ n.uuid _ (sfind_sput_self _ _ _) rfl]
      dsimp only
      cases rOk
      · rw [if_neg Bool.false_ne_true]
        refine c1_glue T s n i hp h _ _ _ _ _ ?_ ?_ ?_ ?_ ?_ ?_
        · intro m hm
          rw [sfind_sput_ne _ _ _ _ (herne m hm), sfind_sput_ne _ _ _ _ (herne m hm)]
        · intro k hk
          rw [sfind_sput_ne _ _ _ _ hk, sfind_sput_ne _ _ _ _ hk]
          exact Or.inl rfl
        · exact Or.inr ⟨_, sfind_sput_self _ _ _, hmn0⟩
        · intro tid htid
          exact sfind_sput_ne _ _ _ _ htid
        · exact Or.inr (Or.inl ⟨ht0, sfind_sput_self _ _ _⟩)
        · rw [sfind_sput_ne _ _ _ _ (Ne.symm hTne)]
          rcases hrT : sfind s.registry T with _ | uT
          · refine Or.inl ⟨rfl, ?_⟩
            rw [surfaceCount_append, surfaceCount_added, if_neg hTne, h.noRegT hrT]
          · obtain ⟨hc, rT, hrT2, hnotT⟩ := h.regT uT hrT
            have huTn : uT ≠ n.uuid := fun he =>
              (h.regPendingDisjoint T uT hrT n hnp) he.symm
            refine Or.inr ⟨uT, rT, rfl, ?_, ?_, hnotT⟩
            · rw [surfaceCount_append, surfaceCount_added, if_neg hTne, hc]
            · rw [sfind_sput_ne _ _ _ _ huTn, sfind_sput_ne _ _ _ _ huTn]
              exact hrT2
      · rw [if_pos rfl]
        rw [updateResponded_eq _ n.uuid _ (sfind_sput_self _ _ _) rfl]
        dsimp only
        refine c1_glue T s n i hp h _ _ _ _ _ ?_ ?_ ?_ ?_ ?_ ?_
        · intro m hm
          rw [sfind_sput_ne _ _ _ _ (herne m hm), sfind_sput_ne _ _ _ _ (herne m hm),
            sfind_sput_ne _ _ _ _ (herne m hm)]
        · intro k hk
          rw [sfind_sput_ne _ _ _ _ hk, sfind_sput_ne _ _ _ _ hk, sfind_sput_ne _ _ _ _ hk]
          exact Or.inl rfl
        · exact Or.inr ⟨_, sfind_sput_self _ _ _, hmn0⟩
        · intro tid htid
          rw [sfind_sdel_ne _ _ _ htid]
          exact sfind_sput_ne _ _ _ _ htid
        · exact Or.inr (Or.inr (sfind_sdel_self _ _))
        · rw [sfind_sdel_ne _ _ _ (Ne.symm hTne), sfind_sput_ne _ _ _ _ (Ne.symm hTne)]
          rcases hrT : sfind s.registry T with _ | uT
          · refine Or.inl ⟨rfl, ?_⟩
            rw [surfaceCount_append, surfaceCount_added, if_neg hTne, h.noRegT hrT]
          · obtain ⟨hc, rT, hrT2, hnotT⟩ := h.regT uT hrT
            have huTn : uT ≠ n.uuid := fun he =>
              (h.regPendingDisjoint T uT hrT n hnp) he.symm
            refine Or.inr ⟨uT, rT, rfl, ?_, ?_, hnotT⟩
            · rw [surfaceCount_append, surfaceCount_added, if_neg hTne, hc]
            · rw [sfind_sput_ne _ _ _ _ huTn, sfind_sput_ne _ _ _ _ huTn,
                sfind_sput_ne _ _ _ _ huTn]
              exact hrT2
    · rcases hsu2 : sfind s.store u with _ | ru
      · -- dangling entry: re-pointed at this notification.
        rw [regtr_replace s.registry s.store n u ht0 hu hsu2]
        rw [ghmrc_no_mark (TraceState.mk (sput s.registry n.transactionId n.uuid) (sput s.store n.uuid { r0 with state := .downloaded, contentPath := "content-" ++ n.uuid }) s.handlers (s.pending.eraseIdx i) s.events s.used (n.uuid :: s.delivered)) n (Or.inl (by rw [show sfind (sput s.registry n.transactionId n.uuid) n.transactionId = some n.uuid from sfind_sput_self _ _ _]; simp [priorDiffers]))]
        dsimp only
        rw [updateReceived_eq _ n.uuid _ (sfind_sput_self _ _ _) rfl]
        dsimp only
        cases rOk
        · rw [if_neg Bool.false_ne_true]
          refine c1_glue T s n i hp h _ _ _ _ _ ?_ ?_ ?_ ?_ ?_ ?_
          · intro m hm
            rw [sfind_sput_ne _ _ _ _ (herne m hm), sfind_sput_ne _ _ _ _ (herne m hm)]
          · intro k hk
            rw [sfind_sput_ne _ _ _ _ hk, sfind_sput_ne _ _ _ _ hk]
            exact Or.inl rfl
          · exact Or.inr ⟨_, sfind_sput_self _ _ _, hmn0⟩
          · intro tid htid
            exact sfind_sput_ne _ _ _ _ htid
          · exact Or.inr (Or.inl ⟨ht0, sfind_sput_self _ _ _⟩)
          · rw [sfind_sput_ne _ _ _ _ (Ne.symm hTne)]
            rcases hrT : sfind s.registry T with _ | uT
            · refine Or.inl ⟨rfl, ?_⟩
              rw [surfaceCount_append, surfaceCount_added, if_neg hTne, h.noRegT hrT]
            · obtain ⟨hc, rT, hrT2, hnotT⟩ := h.regT uT hrT
              have huTn : uT ≠ n.uuid := fun he =>
                (h.regPendingDisjoint T uT hrT n hnp) he.symm
              refine Or.inr ⟨uT, rT, rfl, ?_, ?_, hnotT⟩
              · rw [surfaceCount_append, surfaceCount_added, if_neg hTne, hc]
              · rw [sfind_sput_ne _ _ _ _ huTn, sfind_sput_ne _ _ _ _ huTn]
                exact hrT2
        · rw [if_pos rfl]
          rw [updateResponded_eq _ n.uuid _ (sfind_sput_self _ _ _) rfl]
          dsimp only
          refine c1_glue T s n i hp h _ _ _ _ _ ?_ ?_ ?_ ?_ ?_ ?_
          · intro m hm
            rw [sfind_sput_ne _ _ _ _ (herne m hm), sfind_sput_ne _ _ _ _ (herne m hm),
              sfind_sput_ne _ _ _ _ (herne m hm)]
          · intro k hk
            rw [sfind_sput_ne _ _ _ _ hk, sfind_sput_ne _ _ _ _ hk, sfind_sput_ne _ _ _ _ hk]
            exact Or.inl rfl
          · exact Or.inr ⟨_, sfind_sput_self _ _ _, hmn0⟩
          · intro tid htid
            rw [sfind_sdel_ne _ _ _ htid]
            exact sfind_sput_ne _ _ _ _ htid
          · exact Or.inr (Or.inr (sfind_sdel_self _ _))
          · rw [sfind_sdel_ne _ _ _ (Ne.symm hTne), sfind_sput_ne _ _ _ _ (Ne.symm hTne)]
            rcases hrT : sfind s.registry T with _ | uT
            · refine Or.inl ⟨rfl, ?_⟩
              rw [surfaceCount_append, surfaceCount_added, if_neg hTne, h.noRegT hrT]
            · obtain ⟨hc, rT, hrT2, hnotT⟩ := h.regT uT hrT
              have huTn : uT ≠ n.uuid := fun he =>
                (h.regPendingDisjoint T uT hrT n hnp) he.symm
              refine Or.inr ⟨uT, rT, rfl, ?_, ?_, hnotT⟩
              · rw [surfaceCount_append, surfaceCount_added, if_neg hTne, hc]
              · rw [sfind_sput_ne _ _ _ _ huTn, sfind_sput_ne _ _ _ _ huTn,
                  sfind_sput_ne _ _ _ _ huTn]
                exact hrT2
      · -- live prior entry: kept.
        rw [regtr_keep s.registry s.store n u ru ht0 hu hsu2]
        have hune : u ≠ n.uuid := fun he =>
          (h.regPendingDisjoint _ u hu n hnp) he.symm
        have hsub : sfind (sput s.store n.uuid { r0 with state := .downloaded, contentPath := "content-" ++ n.uuid }) u = some ru := by
          rw [sfind_sput_ne _ _ _ _ hune]
          exact hsu2
        by_cases hmark : ru.telepathyErrorNotified = true
        · -- the prior surface is superseded and removed.
          rw [ghmrc_mark (TraceState.mk s.registry (sput s.store n.uuid { r0 with state := .downloaded, contentPath := "content-" ++ n.uuid }) s.handlers (s.pending.eraseIdx i) s.events s.used (n.uuid :: s.delivered)) n u ru ht0 hrdl hu hune hsub hmark]
          dsimp only
          have huTu : ∀ uT rT, sfind s.registry T = some uT →
              sfind s.store uT = some rT → uT ≠ u := by
            intro uT rT hrT hrT2 he
            subst he
            obtain ⟨_, hrec⟩ := h.regRec T uT hrT
            rcases hrec with hrec | ⟨r1, m1, hr1, hm1, hmt1, _⟩
            · rw [hrT2] at hrec
              exact absurd hrec (by simp)
            · obtain ⟨_, hrec2⟩ := h.regRec n.transactionId uT hu
              rcases hrec2 with hrec2 | ⟨r2, m2, hr2, hm2, hmt2, _⟩
              · rw [hsu2] at hrec2
                exact absurd hrec2 (by simp)
              · rw [hr1] at hr2
                cases hr2
                rw [hm1] at hm2
                cases hm2
                exact hTne (hmt2 ▸ hmt1)
          by_cases hh2 : u ∈ addHandler s.handlers n.uuid
          · rw [messageRemoved_pos _ u hh2]
            dsimp only
            rw [updateReceived_eq _ n.uuid { r0 with state := .downloaded, contentPath := "content-" ++ n.uuid } (by rw [sfind_sdel_ne _ _ _ (Ne.symm hune)]; exact sfind_sput_self _ _ _) rfl]
            dsimp only
            cases rOk
            · rw [if_neg Bool.false_ne_true]
              refine c1_glue T s n i hp h _ _ _ _ _ ?_ ?_ ?_ ?_ ?_ ?_
              · intro m hm
                have hmu : m.uuid ≠ u := fun he =>
                  (h.regPendingDisjoint _ u hu m (mem_of_eraseIdx hm)) he
                rw [sfind_sput_ne _ _ _ _ (herne m hm), sfind_sdel_ne _ _ _ hmu,
                  sfind_sput_ne _ _ _ _ (herne m hm)]
              · intro k hk
                rw [sfind_sput_ne _ _ _ _ hk]
                by_cases hku : k = u
                · subst hku
                  exact Or.inr (sfind_sdel_self _ _)
                · rw [sfind_sdel_ne _ _ _ hku, sfind_sput_ne _ _ _ _ hk]
                  exact Or.inl rfl
              · exact Or.inr ⟨_, sfind_sput_self _ _ _, hmn0⟩
              · intro tid _
                rfl
              · exact Or.inl rfl
              · rcases hrT : sfind s.registry T with _ | uT
                · refine Or.inl ⟨rfl, ?_⟩
                  rw [surfaceCount_append, surfaceCount_append, surfaceCount_added,
                    surfaceCount_removed, if_neg hTne, h.noRegT hrT]
                · obtain ⟨hc, rT, hrT2, hnotT⟩ := h.regT uT hrT
                  have huTn : uT ≠ n.uuid := fun he =>
                    (h.regPendingDisjoint T uT hrT n hnp) he.symm
                  have huTu2 : uT ≠ u := huTu uT rT hrT hrT2
                  refine Or.inr ⟨uT, rT, rfl, ?_, ?_, hnotT⟩
                  · rw [surfaceCount_append, surfaceCount_append, surfaceCount_added,
                      surfaceCount_removed, if_neg hTne, hc]
                  · rw [sfind_sput_ne _ _ _ _ huTn, sfind_sdel_ne _ _ _ huTu2,
                      sfind_sput_ne _ _ _ _ huTn]
                    exact hrT2
            · rw [if_pos rfl]
              rw [updateResponded_eq _ n.uuid _ (sfind_sput_self _ _ _) rfl]
              dsimp only
              refine c1_glue T s n i hp h _ _ _ _ _ ?_ ?_ ?_ ?_ ?_ ?_
              · intro m hm
                have hmu : m.uuid ≠ u := fun he =>
                  (h.regPendingDisjoint _ u hu m (mem_of_eraseIdx hm)) he
                rw [sfind_sput_ne _ _ _ _ (herne m hm), sfind_sput_ne _ _ _ _ (herne m hm),
                  sfind_sdel_ne _ _ _ hmu, sfind_sput_ne _ _ _ _ (herne m hm)]
              · intro k hk
                rw [sfind_sput_ne _ _ _ _ hk, sfind_sput_ne _ _ _ _ hk]
                by_cases hku : k = u
                · subst hku
                  exact Or.inr (sfind_sdel_self _ _)
                · rw [sfind_sdel_ne _ _ _ hku, sfind_sput_ne _ _ _ _ hk]
                  exact Or.inl rfl
              · exact Or.inr ⟨_, sfind_sput_self _ _ _, hmn0⟩
              · intro tid htid
                exact sfind_sdel_ne _ _ _ htid
              · exact Or.inr (Or.inr (sfind_sdel_self _ _))
              · rw [sfind_sdel_ne s.registry n.transactionId T (Ne.symm hTne)]
                rcases hrT : sfind s.registry T with _ | uT
                · refine Or.inl ⟨rfl, ?_⟩
                  rw [surfaceCount_append, surfaceCount_append, surfaceCount_added,
                    surfaceCount_removed, if_neg hTne, h.noRegT hrT]
                · obtain ⟨hc, rT, hrT2, hnotT⟩ := h.regT uT hrT
                  have huTn : uT ≠ n.uuid := fun he =>
                    (h.regPendingDisjoint T uT hrT n hnp) he.symm
                  have huTu2 : uT ≠ u := huTu uT rT hrT hrT2
                  refine Or.inr ⟨uT, rT, rfl, ?_, ?_, hnotT⟩
                  · rw [surfaceCount_append, surfaceCount_append, surfaceCount_added,
                      surfaceCount_removed, if_neg hTne, hc]
                  · rw [sfind_sput_ne _ _ _ _ huTn, sfind_sput_ne _ _ _ _ huTn,
                      sfind_sdel_ne _ _ _ huTu2, sfind_sput_ne _ _ _ _ huTn]
                    exact hrT2
          · rw [messageRemoved_neg _ u hh2]
            rw [updateReceived_eq _ n.uuid _ (sfind_sput_self _ _ _) rfl]
            dsimp only
            cases rOk
            · rw [if_neg Bool.false_ne_true]
              refine c1_glue T s n i hp h _ _ _ _ _ ?_ ?_ ?_ ?_ ?_ ?_
              · intro m hm
                rw [sfind_sput_ne _ _ _ _ (herne m hm), sfind_sput_ne _ _ _ _ (herne m hm)]
              · intro k hk
                rw [sfind_sput_ne _ _ _ _ hk, sfind_sput_ne _ _ _ _ hk]
                exact Or.inl rfl
              · exact Or.inr ⟨_, sfind_sput_self _ _ _, hmn0⟩
              · intro tid _
                rfl
              · exact Or.inl rfl
              · rcases hrT : sfind s.registry T with _ | uT
                · refine Or.inl ⟨rfl, ?_⟩
                  rw [surfaceCount_append, surfaceCount_added, if_neg hTne, h.noRegT hrT]
                · obtain ⟨hc, rT, hrT2, hnotT⟩ := h.regT uT hrT
                  have huTn : uT ≠ n.uuid := fun he =>
                    (h.regPendingDisjoint T uT hrT n hnp) he.symm
                  refine Or.inr ⟨uT, rT, rfl, ?_, ?_, hnotT⟩
                  · rw [surfaceCount_append, surfaceCount_added, if_neg hTne, hc]
                  · rw [sfind_sput_ne _ _ _ _ huTn, sfind_sput_ne _ _ _ _ huTn]
                    exact hrT2
            · rw [if_pos rfl]
              rw [updateResponded_eq _ n.uuid _ (sfind_sput_self _ _ _) rfl]
              dsimp only
              refine c1_glue T s n i hp h _ _ _ _ _ ?_ ?_ ?_ ?_ ?_ ?_
              · intro m hm
                rw [sfind_sput_ne _ _ _ _ (herne m hm), sfind_sput_ne _ _ _ _ (herne m hm),
                  sfind_sput_ne _ _ _ _ (herne m hm)]
              · intro k hk
                rw [sfind_sput_ne _ _ _ _ hk, sfind_sput_ne _ _ _ _ hk, sfind_sput_ne _ _ _ _ hk]
                exact Or.inl rfl
              · exact Or.inr ⟨_, sfind_sput_self _ _ _, hmn0⟩
              · intro tid htid
                exact sfind_sdel_ne _ _ _ htid
              · exact Or.inr (Or.inr (sfind_sdel_self _ _))
              · rw [sfind_sdel_ne s.registry n.transactionId T (Ne.symm hTne)]
                rcases hrT : sfind s.registry T with _ | uT
                · refine Or.inl ⟨rfl, ?_⟩
                  rw [surfaceCount_append, surfaceCount_added, if_neg hTne, h.noRegT hrT]
                · obtain ⟨hc, rT, hrT2, hnotT⟩ := h.regT uT hrT
                  have huTn : uT ≠ n.uuid := fun he =>
                    (h.regPendingDisjoint T uT hrT n hnp) he.symm
                  refine Or.inr ⟨uT, rT, rfl, ?_, ?_, hnotT⟩
                  · rw [surfaceCount_append, surfaceCount_added, if_neg hTne, hc]
                  · rw [sfind_sput_ne _ _ _ _ huTn, sfind_sput_ne _ _ _ _ huTn,
                      sfind_sput_ne _ _ _ _ huTn]
                    exact hrT2
        · -- prior not yet notified: no supersession mark.
          have hmark2 : ru.telepathyErrorNotified = false := by
            cases hb : ru.telepathyErrorNotified
            · rfl
            · exact absurd hb hmark
          rw [ghmrc_no_mark (TraceState.mk s.registry (sput s.store n.uuid { r0 with state := .downloaded, contentPath := "content-" ++ n.uuid }) s.handlers (s.pending.eraseIdx i) s.events s.used (n.uuid :: s.delivered)) n (Or.inr (by rw [hu]; dsimp only; rw [hsub]; exact hmark2))]
          dsimp only
          rw [updateReceived_eq _ n.uuid _ (sfind_sput_self _ _ _) rfl]
          dsimp only
          cases rOk
          · rw [if_neg Bool.false_ne_true]
            refine c1_glue T s n i hp h _ _ _ _ _ ?_ ?_ ?_ ?_ ?_ ?_
            · intro m hm
              rw [sfind_sput_ne _ _ _ _ (herne m hm), sfind_sput_ne _ _ _ _ (herne m hm)]
            · intro k hk
              rw [sfind_sput_ne _ _ _ _ hk, sfind_sput_ne _ _ _ _ hk]
              exact Or.inl rfl
            · exact Or.inr ⟨_, sfind_sput_self _ _ _, hmn0⟩
            · intro tid _
              rfl
            · exact Or.inl rfl
            · rcases hrT : sfind s.registry T with _ | uT
              · refine Or.inl ⟨rfl, ?_⟩
                rw [surfaceCount_append, surfaceCount_added, if_neg hTne, h.noRegT hrT]
              · obtain ⟨hc, rT, hrT2, hnotT⟩ := h.regT uT hrT
                have huTn : uT ≠ n.uuid := fun he =>
                  (h.regPendingDisjoint T uT hrT n hnp) he.symm
                refine Or.inr ⟨uT, rT, rfl, ?_, ?_, hnotT⟩
                · rw [surfaceCount_append, surfaceCount_added, if_neg hTne, hc]
                · rw [sfind_sput_ne _ _ _ _ huTn, sfind_sput_ne _ _ _ _ huTn]
                  exact hrT2
          · rw [if_pos rfl]
            rw [updateResponded_eq _ n.uuid _ (sfind_sput_self _ _ _) rfl]
            dsimp only
            refine c1_glue T s n i hp h _ _ _ _ _ ?_ ?_ ?_ ?_ ?_ ?_
            · intro m hm
              rw [sfind_sput_ne _ _ _ _ (herne m hm), sfind_sput_ne _ _ _ _ (herne m hm),
                sfind_sput_ne _ _ _ _ (herne m hm)]
            · intro k hk
              rw [sfind_sput_ne _ _ _ _ hk, sfind_sput_ne _ _ _ _ hk, sfind_sput_ne _ _ _ _ hk]
              exact Or.inl rfl
            · exact Or.inr ⟨_, sfind_sput_self _ _ _, hmn0⟩
            · intro tid htid
              exact sfind_sdel_ne _ _ _ htid
            · exact Or.inr (Or.inr (sfind_sdel_self _ _))
            · rw [sfind_sdel_ne s.registry n.transactionId T (Ne.symm hTne)]
              rcases hrT : sfind s.registry T with _ | uT
              · refine Or.inl ⟨rfl, ?_⟩
                rw [surfaceCount_append, surfaceCount_added, if_neg hTne, h.noRegT hrT]
              · obtain ⟨hc, rT, hrT2, hnotT⟩ := h.regT uT hrT
                have huTn : uT ≠ n.uuid := fun he =>
                  (h.regPendingDisjoint T uT hrT n hnp) he.symm
                refine Or.inr ⟨uT, rT, rfl, ?_, ?_, hnotT⟩
                · rw [surfaceCount_append, surfaceCount_added, if_neg hTne, hc]
                · rw [sfind_sput_ne _ _ _ _ huTn, sfind_sput_ne _ _ _ _ huTn,
                    sfind_sput_ne _ _ _ _ huTn]
                  exact hrT2

theorem c1_deliver (T : String) (hT : T ≠ "") (s : TraceState) (i : Nat) (o : Outcome)
    (ho : c1Step T s (.deliverIdx i o)) (h : C1Inv T s) :
    C1Inv T (applyStep s (.deliverIdx i o)) := by
  obtain ⟨hAdd, hNoAS, hNoSucc⟩ := ho
  unfold applyStep
  dsimp only
  rcases hp : s.pending[i]? with _ | n
  · exact h
  · dsimp only
    have hnp : n ∈ s.pending := mem_of_pendingIdx hp
    obtain ⟨r0, hr0, hst0, hnot0, hmn0⟩ := h.pendingRec n hnp
    rcases o with ⟨k, a⟩
    dsimp only at hAdd hNoAS hNoSucc
    subst hAdd
    rcases k with _ | _ | _ | _ | rOk
    · unfold deliver
      dsimp only
      exact c1_fail_path T hT s n i hp h s.store r0 hr0 hmn0 (fun _ _ => rfl)
    · unfold deliver
      dsimp only
      exact c1_fail_path T hT s n i hp h s.store r0 hr0 hmn0 (fun _ _ => rfl)
    · unfold deliver
      dsimp only
      rw [updateDownloaded_eq s.store n.uuid ("content-" ++ n.uuid) r0 hr0 hst0]
      dsimp only
      rw [ghmrc_noDecode (TraceState.mk (registerTransaction s.registry s.store n)
          (sput s.store n.uuid { r0 with state := .downloaded, contentPath := "content-" ++ n.uuid })
          s.handlers (s.pending.eraseIdx i) s.events s.used (n.uuid :: s.delivered)) n true]
      dsimp only
      exact c1_fail_path T hT s n i hp h
        (sput s.store n.uuid { r0 with state := .downloaded, contentPath := "content-" ++ n.uuid })
        { r0 with state := .downloaded, contentPath := "content-" ++ n.uuid }
        (sfind_sput_self _ _ _) hmn0
        (fun k hk => sfind_sput_ne _ _ _ _ hk)
    · exact absurd rfl hNoAS
    · have hTne : n.transactionId ≠ T := by
        intro he
        have hc := hNoSucc n hp he
        simp [OutcomeKind.isSuccess] at hc
      exact c1_success_path T hT s n i hp h hTne rOk

theorem c1_run (T : String) (hT : T ≠ "") :
    ∀ (tr : List Step) (s : TraceState), C1Inv T s → OkFrom (c1Step T) s tr →
      C1Inv T (runTrace s tr) := by
  intro tr
  induction tr with
  | nil => intro s h _; exact h
  | cons st rest ih =>
    intro s h hok
    obtain ⟨h1, h2⟩ := hok
    refine ih _ ?_ h2
    cases st with
    | push m n => exact c1_push T s m n h
    | deliverIdx i o => exact c1_deliver T hT s i o h1 h
    | redownload u f => exact h1.elim
    | deleteCall u t2 => exact h1.elim
    | reconcile m t2 o => exact h1.elim

/-- C1 (amended): starting from an empty boot state, over any trace of
operator pushes and handler runs in which every telepathy broadcast
succeeds and no successful download occurs for the observed transaction
id T, at most one surface event (IncomingMessageAdded or
IncomingMessageFailAdded) is emitted for T; and, as the claim's second
part states, when a prior registry entry for the transaction id points at
a different UUID whose record is error-notified or received/responded,
handleMessageDownloadError emits nothing and destroys the duplicate
record. -/
theorem C1_amended (T : String) (hT : T ≠ "") (tr : List Step)
    (hok : OkFrom (c1Step T) (startState []) tr) :
    surfaceCount T (runTrace (startState []) tr).events ≤ 1 ∧
    (∀ (s : TraceState) (n : MNotificationInd) (u : String) (r : MMSState) (addOk : Bool),
      n.transactionId ≠ "" → n.redownloadOfUUID = "" →
      sfind s.registry n.transactionId = some u → u ≠ n.uuid →
      sfind s.store u = some r →
      (r.telepathyErrorNotified = true ∨ r.state = .received ∨ r.state = .responded) →
      handleMessageDownloadError s n addOk =
        { s with store := storageDestroy s.store n.uuid }) := by
  refine ⟨?_, fun s n u r addOk h1 h2 h3 h4 h5 h6 =>
    hmde_drop s n u r addOk h1 h2 h3 h4 h5 h6⟩
  have h := c1_run T hT tr (startState []) (c1Inv_start T) hok
  rcases hr : sfind (runTrace (startState []) tr).registry T with _ | u
  · rw [h.noRegT hr]
    exact Nat.zero_le 1
  · exact le_of_eq (h.regT u hr).1

/-- Witness instantiating C1_amended on a concrete constrained trace. -/
theorem C1_witness :
    surfaceCount "T" (runTrace (startState [])
      [.push "m" wNotifA, .deliverIdx 0 ⟨.failActivate, true⟩]).events ≤ 1 ∧
    (∀ (s : TraceState) (n : MNotificationInd) (u : String) (r : MMSState) (addOk : Bool),
      n.transactionId ≠ "" → n.redownloadOfUUID = "" →
      sfind s.registry n.transactionId = some u → u ≠ n.uuid →
      sfind s.store u = some r →
      (r.telepathyErrorNotified = true ∨ r.state = .received ∨ r.state = .responded) →
      handleMessageDownloadError s n addOk =
        { s with store := storageDestroy s.store n.uuid }) :=
  C1_amended "T" (by decide) [.push "m" wNotifA, .deliverIdx 0 ⟨.failActivate, true⟩]
    ⟨trivial, ⟨rfl, by decide, fun _ _ _ => rfl⟩, trivial⟩

/- ### C4: no registry entry points at a responded record -/

theorem sfind_sput_inv {α : Type} (l : List (String × α)) (k key : String)
    (v w : α) (h : sfind (sput l k v) key = some w) :
    (key = k ∧ w = v) ∨ (key ≠ k ∧ sfind l key = some w) := by
  by_cases hk : key = k
  · subst hk
    rw [sfind_sput_self] at h
    exact Or.inl ⟨rfl, (Option.some.inj h).symm⟩
  · rw [sfind_sput_ne l k key v hk] at h
    exact Or.inr ⟨hk, h⟩

theorem sfind_sdel_inv {α : Type} (l : List (String × α)) (k key : String)
    (w : α) (h : sfind (sdel l k) key = some w) :
    key ≠ k ∧ sfind l key = some w := by
  by_cases hk : key = k
  · subst hk
    rw [sfind_sdel_self] at h
    cases h
  · rw [sfind_sdel_ne l k key hk] at h
    exact ⟨hk, h⟩

theorem sfind_mem_keys {α : Type} :
    ∀ (l : List (String × α)) (u : String) (r : α), sfind l u = some r →
      u ∈ l.map Prod.fst := by
  intro l
  induction l with
  | nil => intro u r h; cases h
  | cons p rest ih =>
    intro u r h
    unfold sfind at h
    by_cases hk : p.1 = u
    · simp [hk]
    · rcases p with ⟨k, v⟩
      rw [if_neg hk] at h
      simp only [List.map_cons, List.mem_cons]
      exact Or.inr (ih u r h)

theorem setTEN_some (st : Store) (uuid : String) (st' : Store)
    (h : storageSetTelepathyErrorNotified st uuid = some st') :
    ∃ r, sfind st uuid = some r ∧
      st' = sput st uuid { r with telepathyErrorNotified := true } := by
  unfold storageSetTelepathyErrorNotified at h
  rcases hf : sfind st uuid with _ | r
  · rw [hf] at h; dsimp only at h; cases h
  · rw [hf] at h
    dsimp only at h
    exact ⟨r, rfl, (Option.some.inj h).symm⟩

theorem updateDownloaded_some (st : Store) (uuid p : String) (st' : Store)
    (h : storageUpdateDownloaded st uuid p = some st') :
    ∃ r, sfind st uuid = some r ∧ r.state = .notification ∧
      st' = sput st uuid { r with state := .downloaded, contentPath := p } := by
  unfold storageUpdateDownloaded at h
  rcases hf : sfind st uuid with _ | r
  · rw [hf] at h; dsimp only at h; cases h
  · rw [hf] at h
    dsimp only at h
    by_cases hs : r.state = .notification
    · rw [if_pos hs] at h
      exact ⟨r, rfl, hs, (Option.some.inj h).symm⟩
    · rw [if_neg hs] at h; cases h

theorem updateReceived_some (st : Store) (uuid : String) (st' : Store)
    (h : storageUpdateReceived st uuid = some st') :
    ∃ r, sfind st uuid = some r ∧ r.state = .downloaded ∧
      st' = sput st uuid { r with state := .received } := by
  unfold storageUpdateReceived at h
  rcases hf : sfind st uuid with _ | r
  · rw [hf] at h; dsimp only at h; cases h
  · rw [hf] at h
    dsimp only at h
    by_cases hs : r.state = .downloaded
    · rw [if_pos hs] at h
      exact ⟨r, rfl, hs, (Option.some.inj h).symm⟩
    · rw [if_neg hs] at h; cases h

theorem updateResponded_some (st : Store) (uuid : String) (st' : Store)
    (h : storageUpdateResponded st uuid = some st') :
    ∃ r, sfind st uuid = some r ∧ r.state = .received ∧
      st' = sput st uuid { r with state := .responded } := by
  unfold storageUpdateResponded at h
  rcases hf : sfind st uuid with _ | r
  · rw [hf] at h; dsimp only at h; cases h
  · rw [hf] at h
    dsimp only at h
    by_cases hs : r.state = .received
    · rw [if_pos hs] at h
      exact ⟨r, rfl, hs, (Option.some.inj h).symm⟩
    · rw [if_neg hs] at h; cases h

theorem mr_pair_pos (s : TraceState) (u : String) (h : u ∈ s.handlers) :
    messageRemoved s u =
      ({ s with handlers := s.handlers.erase u,
                store := sdel s.store u,
                events := s.events ++ [.removed u] }, true) := by
  unfold messageRemoved
  rw [if_pos h]
  simp [storageDestroy]

theorem mr_pair_neg (s : TraceState) (u : String) (h : u ∉ s.handlers) :
    messageRemoved s u = (s, false) := by
  unfold messageRemoved
  rw [if_neg h]

theorem foldl_pres {α β : Type} (f : β → α → β) (P : β → Prop)
    (h : ∀ b a, P b → P (f b a)) :
    ∀ (l : List α) (b : β), P b → P (l.foldl f b) := by
  intro l
  induction l with
  | nil => intro b hb; exact hb
  | cons a rest ih => intro b hb; exact ih (f b a) (h b a hb)

theorem c4_fields (s s' : TraceState) (h : C4Inv s)
    (hr : s'.registry = s.registry) (hs : s'.store = s.store)
    (hp : s'.pending = s.pending) (hu : s'.used = s.used)
    (hd : s'.delivered = s.delivered) : C4Inv s' := by
  refine ⟨?_, ?_, ?_, ?_, ?_, ?_, ?_, ?_⟩
  · intro u r h1; exact h.storeNotif u r (hs ▸ h1)
  · intro u r h1; exact hu ▸ h.usedStore u r (hs ▸ h1)
  · intro t u h1; exact hu ▸ h.usedReg t u (hr ▸ h1)
  · intro n h1; exact hu ▸ h.usedPending n (hp ▸ h1)
  · intro u h1; exact hu ▸ h.usedDelivered u (hd ▸ h1)
  · intro n h1 r m h2 h3; exact h.pendingTid n (hp ▸ h1) r m (hs ▸ h2) h3
  · intro n h1 h2 r h3
    exact h.pendingState n (hp ▸ h1) (fun hc => h2 (hd ▸ hc)) r (hs ▸ h3)
  · intro t u h1
    obtain ⟨ht, hrec⟩ := h.regWF t u (hr ▸ h1)
    exact ⟨ht, hs ▸ hrec⟩

theorem c4_sdel (s : TraceState) (k : String) (h : C4Inv s) :
    C4Inv { s with store := sdel s.store k } := by
  refine ⟨?_, ?_, ?_, ?_, ?_, ?_, ?_, ?_⟩
  · intro u r h1
    exact h.storeNotif u r (sfind_sdel_inv s.store k u r h1).2
  · intro u r h1
    exact h.usedStore u r (sfind_sdel_inv s.store k u r h1).2
  · exact h.usedReg
  · exact h.usedPending
  · exact h.usedDelivered
  · intro n h1 r m h2 h3
    exact h.pendingTid n h1 r m (sfind_sdel_inv s.store k n.uuid r h2).2 h3
  · intro n h1 h2 r h3
    exact h.pendingState n h1 h2 r (sfind_sdel_inv s.store k n.uuid r h3).2
  · intro t u h1
    obtain ⟨ht, hrec⟩ := h.regWF t u h1
    refine ⟨ht, ?_⟩
    by_cases hk : u = k
    · subst hk
      exact Or.inl (sfind_sdel_self s.store u)
    · rw [sfind_sdel_ne s.store k u hk]
      exact hrec

theorem c4_reg_del (s : TraceState) (t : String) (h : C4Inv s) :
    C4Inv { s with registry := sdel s.registry t } := by
  refine ⟨h.storeNotif, h.usedStore, ?_, h.usedPending, h.usedDelivered,
    h.pendingTid, h.pendingState, ?_⟩
  · intro t2 u h1
    exact h.usedReg t2 u (sfind_sdel_inv s.registry t t2 u h1).2
  · intro t2 u h1
    exact h.regWF t2 u (sfind_sdel_inv s.registry t t2 u h1).2

theorem c4_reg_put (s : TraceState) (t u : String) (h : C4Inv s)
    (ht : t ≠ "") (hu : u ∈ s.used)
    (hrec : sfind s.store u = none ∨ ∃ r m, sfind s.store u = some r ∧
      r.mNotificationInd = some m ∧ m.transactionId = t ∧ r.state ≠ .responded) :
    C4Inv { s with registry := sput s.registry t u } := by
  refine ⟨h.storeNotif, h.usedStore, ?_, h.usedPending, h.usedDelivered,
    h.pendingTid, h.pendingState, ?_⟩
  · intro t2 u2 h1
    rcases sfind_sput_inv s.registry t t2 u u2 h1 with ⟨_, h3⟩ | ⟨_, h3⟩
    · exact h3 ▸ hu
    · exact h.usedReg t2 u2 h3
  · intro t2 u2 h1
    rcases sfind_sput_inv s.registry t t2 u u2 h1 with ⟨h2, h3⟩ | ⟨_, h3⟩
    · subst h2
      subst h3
      exact ⟨ht, hrec⟩
    · exact h.regWF t2 u2 h3

theorem c4_put_del (s : TraceState) (t u : String) (h : C4Inv s) :
    C4Inv { s with registry := sdel (sput s.registry t u) t } := by
  refine ⟨h.storeNotif, h.usedStore, ?_, h.usedPending, h.usedDelivered,
    h.pendingTid, h.pendingState, ?_⟩
  · intro t2 u2 h1
    obtain ⟨hne, h2⟩ := sfind_sdel_inv _ t t2 u2 h1
    rcases sfind_sput_inv s.registry t t2 u u2 h2 with ⟨h3, _⟩ | ⟨_, h3⟩
    · exact absurd h3 hne
    · exact h.usedReg t2 u2 h3
  · intro t2 u2 h1
    obtain ⟨hne, h2⟩ := sfind_sdel_inv _ t t2 u2 h1
    rcases sfind_sput_inv s.registry t t2 u u2 h2 with ⟨h3, _⟩ | ⟨_, h3⟩
    · exact absurd h3 hne
    · exact h.regWF t2 u2 h3

theorem c4_delivered_cons (s : TraceState) (u : String) (h : C4Inv s)
    (hu : u ∈ s.used) : C4Inv { s with delivered := u :: s.delivered } := by
  refine ⟨h.storeNotif, h.usedStore, h.usedReg, h.usedPending, ?_,
    h.pendingTid, ?_, h.regWF⟩
  · intro u2 h1
    rcases List.mem_cons.mp h1 with h2 | h2
    · exact h2 ▸ hu
    · exact h.usedDelivered u2 h2
  · intro n h1 h2 r h3
    exact h.pendingState n h1 (fun hc => h2 (List.mem_cons_of_mem u hc)) r h3

theorem c4_erase (s : TraceState) (i : Nat) (h : C4Inv s) :
    C4Inv { s with pending := s.pending.eraseIdx i } := by
  refine ⟨h.storeNotif, h.usedStore, h.usedReg, ?_, h.usedDelivered, ?_, ?_, h.regWF⟩
  · intro n h1; exact h.usedPending n (mem_of_eraseIdx h1)
  · intro n h1; exact h.pendingTid n (mem_of_eraseIdx h1)
  · intro n h1; exact h.pendingState n (mem_of_eraseIdx h1)

theorem c4_initAdded (s : TraceState) (u : String) (h : C4Inv s) :
    C4Inv (initAdded s u) := by
  unfold initAdded
  split
  · exact h
  · exact c4_fields s _ h rfl rfl rfl rfl rfl

theorem c4_sput (s : TraceState) (k : String) (r r' : MMSState) (h : C4Inv s)
    (hr : sfind s.store k = some r)
    (hm : r'.mNotificationInd = r.mNotificationInd)
    (hps : ∀ n, n ∈ s.pending → n.uuid = k → n.uuid ∉ s.delivered →
      r'.state = .notification)
    (hreg : r'.state ≠ .responded ∨ ∀ t, sfind s.registry t = some k → False) :
    C4Inv { s with store := sput s.store k r' } := by
  refine ⟨?_, ?_, h.usedReg, h.usedPending, h.usedDelivered, ?_, ?_, ?_⟩
  · intro u r2 h1
    rcases sfind_sput_inv s.store k u r' r2 h1 with ⟨h2, h3⟩ | ⟨_, h3⟩
    · subst h2
      subst h3
      obtain ⟨m, hm1, hm2⟩ := h.storeNotif u r hr
      exact ⟨m, hm ▸ hm1, hm2⟩
    · exact h.storeNotif u r2 h3
  · intro u r2 h1
    rcases sfind_sput_inv s.store k u r' r2 h1 with ⟨h2, _⟩ | ⟨_, h3⟩
    · exact h2 ▸ h.usedStore k r hr
    · exact h.usedStore u r2 h3
  · intro n h1 r2 m h2 h3
    rcases sfind_sput_inv s.store k n.uuid r' r2 h2 with ⟨h4, h5⟩ | ⟨_, h5⟩
    · subst h5
      exact h.pendingTid n h1 r m (h4 ▸ hr) (hm ▸ h3)
    · exact h.pendingTid n h1 r2 m h5 h3
  · intro n h1 h2 r2 h3
    rcases sfind_sput_inv s.store k n.uuid r' r2 h3 with ⟨h4, h5⟩ | ⟨_, h5⟩
    · subst h5
      exact hps n h1 h4 h2
    · exact h.pendingState n h1 h2 r2 h5
  · intro t u h1
    obtain ⟨ht, hrec⟩ := h.regWF t u h1
    refine ⟨ht, ?_⟩
    by_cases hk : u = k
    · subst hk
      rcases hreg with hreg | hreg
      · rcases hrec with hrec | ⟨r2, m, h2, h3, h4, _⟩
        · rw [hr] at hrec; cases hrec
        · rw [hr] at h2
          cases h2
          exact Or.inr ⟨r', m, sfind_sput_self _ _ _, hm ▸ h3, h4, hreg⟩
      · exact absurd h1 (fun hc => hreg t hc)
    · rw [sfind_sput_ne s.store k u r' hk]
      exact hrec

theorem c4_resp_finish (s : TraceState) (k t' : String) (r r' : MMSState)
    (h : C4Inv s) (hr : sfind s.store k = some r)
    (hm : r'.mNotificationInd = r.mNotificationInd)
    (hps : ∀ n, n ∈ s.pending → n.uuid = k → n.uuid ∉ s.delivered →
      r'.state = .notification)
    (href : ∀ t2, sfind s.registry t2 = some k → t2 = t') :
    C4Inv { s with store := sput s.store k r',
                   registry := sdel s.registry t' } := by
  refine ⟨?_, ?_, ?_, h.usedPending, h.usedDelivered, ?_, ?_, ?_⟩
  · intro u r2 h1
    rcases sfind_sput_inv s.store k u r' r2 h1 with ⟨h2, h3⟩ | ⟨_, h3⟩
    · subst h2
      subst h3
      obtain ⟨m, hm1, hm2⟩ := h.storeNotif u r hr
      exact ⟨m, hm ▸ hm1, hm2⟩
    · exact h.storeNotif u r2 h3
  · intro u r2 h1
    rcases sfind_sput_inv s.store k u r' r2 h1 with ⟨h2, _⟩ | ⟨_, h3⟩
    · exact h2 ▸ h.usedStore k r hr
    · exact h.usedStore u r2 h3
  · intro t2 u h1
    exact h.usedReg t2 u (sfind_sdel_inv s.registry t' t2 u h1).2
  · intro n h1 r2 m h2 h3
    rcases sfind_sput_inv s.store k n.uuid r' r2 h2 with ⟨h4, h5⟩ | ⟨_, h5⟩
    · subst h5
      exact h.pendingTid n h1 r m (h4 ▸ hr) (hm ▸ h3)
    · exact h.pendingTid n h1 r2 m h5 h3
  · intro n h1 h2 r2 h3
    rcases sfind_sput_inv s.store k n.uuid r' r2 h3 with ⟨h4, h5⟩ | ⟨_, h5⟩
    · subst h5
      exact hps n h1 h4 h2
    · exact h.pendingState n h1 h2 r2 h5
  · intro t2 u h1
    obtain ⟨hne, h2⟩ := sfind_sdel_inv s.registry t' t2 u h1
    obtain ⟨ht, hrec⟩ := h.regWF t2 u h2
    refine ⟨ht, ?_⟩
    by_cases hk : u = k
    · subst hk
      exact absurd (href t2 h2) hne
    · rw [sfind_sput_ne s.store k u r' hk]
      exact hrec

theorem c4_pending_append (s : TraceState) (n : MNotificationInd) (h : C4Inv s)
    (hu : n.uuid ∈ s.used)
    (htid : ∀ r m, sfind s.store n.uuid = some r → r.mNotificationInd = some m →
      m.transactionId = n.transactionId)
    (hst : ∀ r, sfind s.store n.uuid = some r → r.state = .notification) :
    C4Inv { s with pending := s.pending ++ [n] } := by
  refine ⟨h.storeNotif, h.usedStore, h.usedReg, ?_, h.usedDelivered, ?_, ?_, h.regWF⟩
  · intro n2 h1
    rcases List.mem_append.mp h1 with h2 | h2
    · exact h.usedPending n2 h2
    · rw [List.mem_singleton.mp h2]
      exact hu
  · intro n2 h1 r m h2 h3
    rcases List.mem_append.mp h1 with h4 | h4
    · exact h.pendingTid n2 h4 r m h2 h3
    · rw [List.mem_singleton.mp h4] at h2 ⊢
      exact htid r m h2 h3
  · intro n2 h1 h2 r h3
    rcases List.mem_append.mp h1 with h4 | h4
    · exact h.pendingState n2 h4 h2 r h3
    · rw [List.mem_singleton.mp h4] at h3
      exact hst r h3

theorem c4_hmde (s : TraceState) (n : MNotificationInd) (addOk : Bool)
    (h : C4Inv s) (hdel : n.uuid ∈ s.delivered) (hu : n.uuid ∈ s.used)
    (hn : ∀ r, sfind s.store n.uuid = some r → r.state ≠ .responded ∧
      ∀ m, r.mNotificationInd = some m → m.transactionId = n.transactionId) :
    C4Inv (handleMessageDownloadError s n addOk) := by
  unfold handleMessageDownloadError
  dsimp only
  split
  · exact c4_sdel s n.uuid h
  · have h1 : C4Inv (TraceState.mk s.registry s.store (addHandler s.handlers n.uuid)
        s.pending s.events s.used s.delivered) :=
      c4_fields s (TraceState.mk s.registry s.store (addHandler s.handlers n.uuid)
        s.pending s.events s.used s.delivered) h rfl rfl rfl rfl rfl
    split
    · split
      · exact c4_sdel (TraceState.mk s.registry s.store (addHandler s.handlers n.uuid)
          s.pending s.events s.used s.delivered) n.uuid h1
      · exact h1
    · have h2 : C4Inv (TraceState.mk s.registry s.store (addHandler s.handlers n.uuid)
          s.pending (s.events ++ [Ev.failAdded n.transactionId n.uuid]) s.used s.delivered) :=
        c4_fields s (TraceState.mk s.registry s.store (addHandler s.handlers n.uuid)
          s.pending (s.events ++ [Ev.failAdded n.transactionId n.uuid]) s.used s.delivered)
          h rfl rfl rfl rfl rfl
      split
      · split
        · exact c4_sdel (TraceState.mk s.registry s.store (addHandler s.handlers n.uuid)
            s.pending (s.events ++ [Ev.failAdded n.transactionId n.uuid]) s.used s.delivered)
            n.uuid h2
        · exact h2
      · next st3 heq =>
        obtain ⟨r, hr, rfl⟩ := setTEN_some s.store n.uuid st3 heq
        have h3 : C4Inv (TraceState.mk s.registry
            (sput s.store n.uuid { r with telepathyErrorNotified := true })
            (addHandler s.handlers n.uuid) s.pending
            (s.events ++ [Ev.failAdded n.transactionId n.uuid]) s.used s.delivered) :=
          c4_sput (TraceState.mk s.registry s.store (addHandler s.handlers n.uuid)
              s.pending (s.events ++ [Ev.failAdded n.transactionId n.uuid]) s.used s.delivered)
            n.uuid r { r with telepathyErrorNotified := true } h2 hr rfl
            (fun n2 _ he hnd => absurd (he ▸ hdel) hnd)
            (Or.inl (hn r hr).1)
        split
        · next hb =>
          split
          · next u0 heq2 =>
            rw [heq2] at hb
            simp only [priorDiffers, Bool.and_eq_true, bne_iff_ne] at hb
            obtain ⟨ht, hune⟩ := hb
            by_cases hh : u0 ∈ addHandler s.handlers n.uuid
            · rw [mr_pair_pos (TraceState.mk s.registry
                (sput s.store n.uuid { r with telepathyErrorNotified := true })
                (addHandler s.handlers n.uuid) s.pending
                (s.events ++ [Ev.failAdded n.transactionId n.uuid]) s.used s.delivered)
                u0 hh]
              dsimp only
              rw [if_pos rfl]
              have h4 : C4Inv (TraceState.mk s.registry
                  (sput s.store n.uuid { r with telepathyErrorNotified := true })
                  ((addHandler s.handlers n.uuid).erase u0) s.pending
                  ((s.events ++ [Ev.failAdded n.transactionId n.uuid]) ++ [Ev.removed u0])
                  s.used s.delivered) :=
                c4_fields _ (TraceState.mk s.registry
                  (sput s.store n.uuid { r with telepathyErrorNotified := true })
                  ((addHandler s.handlers n.uuid).erase u0) s.pending
                  ((s.events ++ [Ev.failAdded n.transactionId n.uuid]) ++ [Ev.removed u0])
                  s.used s.delivered) h3 rfl rfl rfl rfl rfl
              have h5 := c4_sdel (TraceState.mk s.registry
                  (sput s.store n.uuid { r with telepathyErrorNotified := true })
                  ((addHandler s.handlers n.uuid).erase u0) s.pending
                  ((s.events ++ [Ev.failAdded n.transactionId n.uuid]) ++ [Ev.removed u0])
                  s.used s.delivered) u0 h4
              have h6 := c4_sdel (TraceState.mk s.registry
                  (sdel (sput s.store n.uuid { r with telepathyErrorNotified := true }) u0)
                  ((addHandler s.handlers n.uuid).erase u0) s.pending
                  ((s.events ++ [Ev.failAdded n.transactionId n.uuid]) ++ [Ev.removed u0])
                  s.used s.delivered) n.uuid h5
              exact c4_reg_put (TraceState.mk s.registry
                  (sdel (sdel (sput s.store n.uuid { r with telepathyErrorNotified := true }) u0) n.uuid)
                  ((addHandler s.handlers n.uuid).erase u0) s.pending
                  ((s.events ++ [Ev.failAdded n.transactionId n.uuid]) ++ [Ev.removed u0])
                  s.used s.delivered) n.transactionId n.uuid h6 ht hu
                (Or.inl (sfind_sdel_self _ _))
            · rw [mr_pair_neg (TraceState.mk s.registry
                (sput s.store n.uuid { r with telepathyErrorNotified := true })
                (addHandler s.handlers n.uuid) s.pending
                (s.events ++ [Ev.failAdded n.transactionId n.uuid]) s.used s.delivered)
                u0 hh]
              dsimp only
              rw [if_neg Bool.false_ne_true]
              obtain ⟨m, hm1, _⟩ := h.storeNotif n.uuid r hr
              exact c4_reg_put (TraceState.mk s.registry
                  (sput s.store n.uuid { r with telepathyErrorNotified := true })
                  (addHandler s.handlers n.uuid) s.pending
                  (s.events ++ [Ev.failAdded n.transactionId n.uuid]) s.used s.delivered)
                n.transactionId n.uuid h3 ht hu
                (Or.inr ⟨{ r with telepathyErrorNotified := true }, m,
                  sfind_sput_self _ _ _, hm1, (hn r hr).2 m hm1, (hn r hr).1⟩)
          · exact h3
        · exact h3

theorem ghmrc_c4 (s : TraceState) (n : MNotificationInd) (d a : Bool) :
    ∃ (n1 : MNotificationInd) (hs : List String) (evs : List Ev) (st : Store) (b : Bool),
      getAndHandleMRetrieveConf s n d a =
        (n1, TraceState.mk s.registry st hs s.pending evs s.used s.delivered, b) ∧
      (st = s.store ∨ ∃ u, st = sdel s.store u) ∧
      n1.uuid = n.uuid ∧ n1.transactionId = n.transactionId := by
  unfold getAndHandleMRetrieveConf
  dsimp only
  split
  · exact ⟨n, s.handlers, s.events, s.store, false, rfl, Or.inl rfl, rfl, rfl⟩
  · split
    · split
      · exact ⟨_, _, _, s.store, false, rfl, Or.inl rfl, rfl, rfl⟩
      · exact ⟨_, _, _, s.store, false, rfl, Or.inl rfl, rfl, rfl⟩
    · split
      · split
        · next u heq =>
          by_cases hh : u ∈ addHandler s.handlers n.uuid
          · rw [mr_pair_pos (TraceState.mk s.registry s.store
              (addHandler s.handlers n.uuid) s.pending
              (s.events ++ [Ev.added n.transactionId n.uuid]) s.used s.delivered) u hh]
            dsimp only
            exact ⟨_, _, _, sdel s.store u, true, rfl, Or.inr ⟨u, rfl⟩, rfl, rfl⟩
          · rw [mr_pair_neg (TraceState.mk s.registry s.store
              (addHandler s.handlers n.uuid) s.pending
              (s.events ++ [Ev.added n.transactionId n.uuid]) s.used s.delivered) u hh]
            dsimp only
            exact ⟨_, _, _, s.store, true, rfl, Or.inl rfl, rfl, rfl⟩
        · exact ⟨_, _, _, s.store, true, rfl, Or.inl rfl, rfl, rfl⟩
      · exact ⟨_, _, _, s.store, true, rfl, Or.inl rfl, rfl, rfl⟩

theorem c4_create (s : TraceState) (modemId : String) (n1 : MNotificationInd)
    (u : String) (h : C4Inv s) (hq : n1.uuid = u) (hfr : u ∉ s.used) :
    C4Inv { s with store := storageCreate s.store modemId n1,
                   pending := s.pending ++ [n1],
                   used := u :: s.used } := by
  subst hq
  unfold storageCreate
  have hne : ∀ (k : String), k ∈ s.used → k ≠ n1.uuid :=
    fun k hk he => hfr (he ▸ hk)
  refine ⟨?_, ?_, ?_, ?_, ?_, ?_, ?_, ?_⟩
  · intro u2 r h1
    rcases sfind_sput_inv s.store n1.uuid u2 _ r h1 with ⟨h2, h3⟩ | ⟨_, h3⟩
    · subst h2
      subst h3
      exact ⟨n1, rfl, rfl⟩
    · exact h.storeNotif u2 r h3
  · intro u2 r h1
    rcases sfind_sput_inv s.store n1.uuid u2 _ r h1 with ⟨h2, _⟩ | ⟨_, h3⟩
    · exact h2 ▸ List.mem_cons_self n1.uuid s.used
    · exact List.mem_cons_of_mem _ (h.usedStore u2 r h3)
  · intro t u2 h1
    exact List.mem_cons_of_mem _ (h.usedReg t u2 h1)
  · intro n2 h1
    rcases List.mem_append.mp h1 with h2 | h2
    · exact List.mem_cons_of_mem _ (h.usedPending n2 h2)
    · rw [List.mem_singleton.mp h2]
      exact List.mem_cons_self n1.uuid s.used
  · intro u2 h1
    exact List.mem_cons_of_mem _ (h.usedDelivered u2 h1)
  · intro n2 h1 r m h2 h3
    rcases List.mem_append.mp h1 with h4 | h4
    · have hne2 : n2.uuid ≠ n1.uuid := hne n2.uuid (h.usedPending n2 h4)
      rw [sfind_sput_ne s.store n1.uuid n2.uuid _ hne2] at h2
      exact h.pendingTid n2 h4 r m h2 h3
    · rw [List.mem_singleton.mp h4] at h2 ⊢
      rw [sfind_sput_self] at h2
      cases Option.some.inj h2
      cases Option.some.inj h3
      rfl
  · intro n2 h1 h2d r h3
    rcases List.mem_append.mp h1 with h4 | h4
    · have hne2 : n2.uuid ≠ n1.uuid := hne n2.uuid (h.usedPending n2 h4)
      rw [sfind_sput_ne s.store n1.uuid n2.uuid _ hne2] at h3
      exact h.pendingState n2 h4 h2d r h3
    · rw [List.mem_singleton.mp h4] at h3
      rw [sfind_sput_self] at h3
      cases Option.some.inj h3
      rfl
  · intro t u2 h1
    obtain ⟨ht, hrec⟩ := h.regWF t u2 h1
    have hne2 : u2 ≠ n1.uuid := hne u2 (h.usedReg t u2 h1)
    rw [sfind_sput_ne s.store n1.uuid u2 _ hne2]
    exact ⟨ht, hrec⟩

theorem c4_push (s : TraceState) (modemId : String) (n : MNotificationInd)
    (h : C4Inv s) : C4Inv (pushStep s modemId n) := by
  unfold pushStep
  split
  · exact h
  · next hg =>
    exact c4_create s modemId (adjustReceived s.registry s.store n) n.uuid h
      (adjustReceived_fields s.registry s.store n).1 (fun hc => hg (Or.inl hc))

theorem c4_delete (s : TraceState) (uuid : String) (now : Nat) (h : C4Inv s) :
    C4Inv (deleteStep s uuid now) := by
  unfold deleteStep
  split
  · exact h
  · by_cases hh : uuid ∈ s.handlers
    · rw [messageRemoved_pos s uuid hh]
      exact c4_fields _ _ (c4_sdel s uuid h) rfl rfl rfl rfl rfl
    · rw [messageRemoved_neg s uuid hh]
      exact h

theorem c4_redownload (s : TraceState) (uuid freshUuid : String) (h : C4Inv s) :
    C4Inv (redownloadStep s uuid freshUuid) := by
  unfold redownloadStep
  split
  · exact h
  · next hfr =>
    split
    · exact h
    · next r hr =>
      split
      · exact h
      · split
        · exact h
        · next stored hst =>
          by_cases hh : uuid ∈ s.handlers
          · rw [messageRemoved_pos s uuid hh]
            have h1 : C4Inv (TraceState.mk s.registry (sdel s.store uuid)
                (s.handlers.erase uuid) s.pending (s.events ++ [Ev.removed uuid])
                s.used s.delivered) :=
              c4_fields _ _ (c4_sdel s uuid h) rfl rfl rfl rfl rfl
            exact c4_create (TraceState.mk s.registry (sdel s.store uuid)
                (s.handlers.erase uuid) s.pending (s.events ++ [Ev.removed uuid])
                s.used s.delivered) r.modemId
              { stored with redownloadOfUUID := stored.uuid, uuid := freshUuid }
              freshUuid h1 rfl hfr
          · rw [messageRemoved_neg s uuid hh]
            exact c4_create s r.modemId
              { stored with redownloadOfUUID := stored.uuid, uuid := freshUuid }
              freshUuid h rfl hfr

theorem c4_deliver (s : TraceState) (i : Nat) (o : Outcome) (h : C4Inv s)
    (hone : deliverOnce s (.deliverIdx i o)) :
    C4Inv (applyStep s (.deliverIdx i o)) := by
  unfold applyStep
  dsimp only
  rcases hp : s.pending[i]? with _ | n
  · exact h
  · dsimp only
    have hnp : n ∈ s.pending := mem_of_pendingIdx hp
    have hnd : n.uuid ∉ s.delivered := hone n hp
    have hu : n.uuid ∈ s.used := h.usedPending n hnp
    have h1 : C4Inv (TraceState.mk s.registry s.store s.handlers
        (s.pending.eraseIdx i) s.events s.used s.delivered) :=
      c4_erase s i h
    have h2 : C4Inv (TraceState.mk s.registry s.store s.handlers
        (s.pending.eraseIdx i) s.events s.used (n.uuid :: s.delivered)) :=
      c4_delivered_cons (TraceState.mk s.registry s.store s.handlers
        (s.pending.eraseIdx i) s.events s.used s.delivered) n.uuid h1 hu
    have hrecN : sfind s.store n.uuid = none ∨ ∃ r m, sfind s.store n.uuid = some r ∧
        r.mNotificationInd = some m ∧ m.transactionId = n.transactionId ∧
        r.state ≠ .responded := by
      rcases hsn : sfind s.store n.uuid with _ | r
      · exact Or.inl rfl
      · obtain ⟨m, hm1, _⟩ := h.storeNotif n.uuid r hsn
        refine Or.inr ⟨r, m, rfl, hm1, h.pendingTid n hnp r m hsn hm1, ?_⟩
        intro hc
        rw [h.pendingState n hnp hnd r hsn] at hc
        exact MState.noConfusion hc
    have h0 : C4Inv (TraceState.mk (registerTransaction s.registry s.store n) s.store
        s.handlers (s.pending.eraseIdx i) s.events s.used (n.uuid :: s.delivered)) := by
      unfold registerTransaction
      split
      · exact h2
      · next ht =>
        split
        · exact c4_reg_put (TraceState.mk s.registry s.store s.handlers
            (s.pending.eraseIdx i) s.events s.used (n.uuid :: s.delivered))
            n.transactionId n.uuid h2 ht hu hrecN
        · split
          · exact c4_reg_put (TraceState.mk s.registry s.store s.handlers
              (s.pending.eraseIdx i) s.events s.used (n.uuid :: s.delivered))
              n.transactionId n.uuid h2 ht hu hrecN
          · exact h2
    have hn0 : ∀ r, sfind s.store n.uuid = some r → r.state ≠ .responded ∧
        ∀ m, r.mNotificationInd = some m → m.transactionId = n.transactionId := by
      intro r hr
      refine ⟨?_, fun m hm => h.pendingTid n hnp r m hr hm⟩
      intro hc
      rw [h.pendingState n hnp hnd r hr] at hc
      exact MState.noConfusion hc
    rcases o with ⟨k, a⟩
    unfold deliver
    dsimp only
    rcases k with _ | _ | _ | _ | rOk
    · exact c4_hmde (TraceState.mk (registerTransaction s.registry s.store n) s.store
        s.handlers (s.pending.eraseIdx i) s.events s.used (n.uuid :: s.delivered)) n a
        h0 (List.mem_cons_self _ _) hu hn0
    · exact c4_hmde (TraceState.mk (registerTransaction s.registry s.store n) s.store
        s.handlers (s.pending.eraseIdx i) s.events s.used (n.uuid :: s.delivered)) n a
        h0 (List.mem_cons_self _ _) hu hn0
    · dsimp only
      split
      · exact c4_hmde (TraceState.mk (registerTransaction s.registry s.store n) s.store
          s.handlers (s.pending.eraseIdx i) s.events s.used (n.uuid :: s.delivered)) n a
          h0 (List.mem_cons_self _ _) hu hn0
      · next st1 heq =>
        obtain ⟨r, hr, hrs, rfl⟩ := updateDownloaded_some s.store n.uuid _ st1 heq
        have h1d : C4Inv (TraceState.mk (registerTransaction s.registry s.store n)
            (sput s.store n.uuid { r with state := .downloaded, contentPath := "content-" ++ n.uuid })
            s.handlers (s.pending.eraseIdx i) s.events s.used (n.uuid :: s.delivered)) :=
          c4_sput (TraceState.mk (registerTransaction s.registry s.store n) s.store
            s.handlers (s.pending.eraseIdx i) s.events s.used (n.uuid :: s.delivered))
            n.uuid r _ h0 hr rfl
            (fun n2 _ he hnd2 => absurd (he ▸ List.mem_cons_self n.uuid s.delivered) hnd2)
            (Or.inl (fun hc => MState.noConfusion hc))
        rw [ghmrc_noDecode (TraceState.mk (registerTransaction s.registry s.store n)
            (sput s.store n.uuid { r with state := .downloaded, contentPath := "content-" ++ n.uuid })
            s.handlers (s.pending.eraseIdx i) s.events s.used (n.uuid :: s.delivered)) n true]
        dsimp only
        exact c4_hmde (TraceState.mk (registerTransaction s.registry s.store n)
            (sput s.store n.uuid { r with state := .downloaded, contentPath := "content-" ++ n.uuid })
            s.handlers (s.pending.eraseIdx i) s.events s.used (n.uuid :: s.delivered)) n a
          h1d (List.mem_cons_self _ _) hu
          (fun r2 hr2 => by
            rw [sfind_sput_self] at hr2
            cases Option.some.inj hr2
            exact ⟨fun hc => MState.noConfusion hc,
              fun m hm => h.pendingTid n hnp r m hr hm⟩)
    · dsimp only
      split
      · exact c4_hmde (TraceState.mk (registerTransaction s.registry s.store n) s.store
          s.handlers (s.pending.eraseIdx i) s.events s.used (n.uuid :: s.delivered)) n a
          h0 (List.mem_cons_self _ _) hu hn0
      · next st1 heq =>
        obtain ⟨r, hr, hrs, rfl⟩ := updateDownloaded_some s.store n.uuid _ st1 heq
        have h1d : C4Inv (TraceState.mk (registerTransaction s.registry s.store n)
            (sput s.store n.uuid { r with state := .downloaded, contentPath := "content-" ++ n.uuid })
            s.handlers (s.pending.eraseIdx i) s.events s.used (n.uuid :: s.delivered)) :=
          c4_sput (TraceState.mk (registerTransaction s.registry s.store n) s.store
            s.handlers (s.pending.eraseIdx i) s.events s.used (n.uuid :: s.delivered))
            n.uuid r _ h0 hr rfl
            (fun n2 _ he hnd2 => absurd (he ▸ List.mem_cons_self n.uuid s.delivered) hnd2)
            (Or.inl (fun hc => MState.noConfusion hc))
        obtain ⟨n1, hs1, evs1, st, b, hg, hst, hn1u, hn1t⟩ :=
          ghmrc_c4 (TraceState.mk (registerTransaction s.registry s.store n)
            (sput s.store n.uuid { r with state := .downloaded, contentPath := "content-" ++ n.uuid })
            s.handlers (s.pending.eraseIdx i) s.events s.used (n.uuid :: s.delivered)) n true false
        rw [hg]
        dsimp only
        have hg21 : C4Inv (TraceState.mk (registerTransaction s.registry s.store n)
            st hs1 (s.pending.eraseIdx i) evs1 s.used (n.uuid :: s.delivered)) := by
          rcases hst with rfl | ⟨u2, rfl⟩
          · exact c4_fields _ _ h1d rfl rfl rfl rfl rfl
          · exact c4_fields _ _ (c4_sdel (TraceState.mk (registerTransaction s.registry s.store n)
              (sput s.store n.uuid { r with state := .downloaded, contentPath := "content-" ++ n.uuid })
              s.handlers (s.pending.eraseIdx i) s.events s.used (n.uuid :: s.delivered)) u2 h1d)
              rfl rfl rfl rfl rfl
        refine c4_hmde (TraceState.mk (registerTransaction s.registry s.store n)
            st hs1 (s.pending.eraseIdx i) evs1 s.used (n.uuid :: s.delivered)) n1 a
          hg21 (hn1u ▸ List.mem_cons_self n.uuid s.delivered) (hn1u ▸ hu) ?_
        intro r2 hr2
        rw [hn1u] at hr2
        rw [hn1t]
        rcases hst with rfl | ⟨u2, rfl⟩
        · rw [sfind_sput_self] at hr2
          cases Option.some.inj hr2
          exact ⟨fun hc => MState.noConfusion hc,
            fun m hm => h.pendingTid n hnp r m hr hm⟩
        · by_cases hu2 : n.uuid = u2
          · rw [hu2, sfind_sdel_self] at hr2
            cases hr2
          · rw [sfind_sdel_ne _ u2 n.uuid hu2, sfind_sput_self] at hr2
            cases Option.some.inj hr2
            exact ⟨fun hc => MState.noConfusion hc,
              fun m hm => h.pendingTid n hnp r m hr hm⟩
    · dsimp only
      split
      · exact c4_hmde (TraceState.mk (registerTransaction s.registry s.store n) s.store
          s.handlers (s.pending.eraseIdx i) s.events s.used (n.uuid :: s.delivered)) n a
          h0 (List.mem_cons_self _ _) hu hn0
      · next st1 heq =>
        obtain ⟨r, hr, hrs, rfl⟩ := updateDownloaded_some s.store n.uuid _ st1 heq
        have h1d : C4Inv (TraceState.mk (registerTransaction s.registry s.store n)
            (sput s.store n.uuid { r with state := .downloaded, contentPath := "content-" ++ n.uuid })
            s.handlers (s.pending.eraseIdx i) s.events s.used (n.uuid :: s.delivered)) :=
          c4_sput (TraceState.mk (registerTransaction s.registry s.store n) s.store
            s.handlers (s.pending.eraseIdx i) s.events s.used (n.uuid :: s.delivered))
            n.uuid r _ h0 hr rfl
            (fun n2 _ he hnd2 => absurd (he ▸ List.mem_cons_self n.uuid s.delivered) hnd2)
            (Or.inl (fun hc => MState.noConfusion hc))
        obtain ⟨n1, hs1, evs1, st, b, hg, hst, hn1u, hn1t⟩ :=
          ghmrc_c4 (TraceState.mk (registerTransaction s.registry s.store n)
            (sput s.store n.uuid { r with state := .downloaded, contentPath := "content-" ++ n.uuid })
            s.handlers (s.pending.eraseIdx i) s.events s.used (n.uuid :: s.delivered)) n true true
        rw [hg]
        dsimp only
        have hg21 : C4Inv (TraceState.mk (registerTransaction s.registry s.store n)
            st hs1 (s.pending.eraseIdx i) evs1 s.used (n.uuid :: s.delivered)) := by
          rcases hst with rfl | ⟨u2, rfl⟩
          · exact c4_fields _ _ h1d rfl rfl rfl rfl rfl
          · exact c4_fields _ _ (c4_sdel (TraceState.mk (registerTransaction s.registry s.store n)
              (sput s.store n.uuid { r with state := .downloaded, contentPath := "content-" ++ n.uuid })
              s.handlers (s.pending.eraseIdx i) s.events s.used (n.uuid :: s.delivered)) u2 h1d)
              rfl rfl rfl rfl rfl
        have hfind : sfind st n.uuid = some { r with state := .downloaded, contentPath := "content-" ++ n.uuid } ∨ sfind st n.uuid = none := by
          rcases hst with rfl | ⟨u2, rfl⟩
          · exact Or.inl (sfind_sput_self _ _ _)
          · by_cases hu2 : n.uuid = u2
            · rw [hu2, sfind_sdel_self]
              exact Or.inr rfl
            · rw [sfind_sdel_ne _ u2 n.uuid hu2]
              exact Or.inl (sfind_sput_self _ _ _)
        split
        · exact hg21
        · next st2 heq2 =>
          obtain ⟨r2, hr2, hr2s, rfl⟩ := updateReceived_some st n.uuid st2 heq2
          have hr2d : r2 = { r with state := .downloaded, contentPath := "content-" ++ n.uuid } := by
            rcases hfind with hf | hf
            · rw [hf] at hr2
              exact (Option.some.inj hr2).symm
            · rw [hf] at hr2
              cases hr2
          have h3 : C4Inv (TraceState.mk (registerTransaction s.registry s.store n)
              (sput st n.uuid { r2 with state := .received }) hs1
              (s.pending.eraseIdx i) evs1 s.used (n.uuid :: s.delivered)) :=
            c4_sput (TraceState.mk (registerTransaction s.registry s.store n)
              st hs1 (s.pending.eraseIdx i) evs1 s.used (n.uuid :: s.delivered))
              n.uuid r2 _ hg21 hr2 rfl
              (fun n2 _ he hnd2 => absurd (he ▸ List.mem_cons_self n.uuid s.delivered) hnd2)
              (Or.inl (fun hc => MState.noConfusion hc))
          split
          · split
            · exact c4_reg_del (TraceState.mk (registerTransaction s.registry s.store n)
                (sput st n.uuid { r2 with state := .received }) hs1
                (s.pending.eraseIdx i) evs1 s.used (n.uuid :: s.delivered))
                n.transactionId h3
            · next st3 heq3 =>
              obtain ⟨r3, hr3, hr3s, rfl⟩ := updateResponded_some _ n.uuid st3 heq3
              have hr3d : r3 = { r2 with state := .received } := by
                rw [sfind_sput_self] at hr3
                exact (Option.some.inj hr3).symm
              refine c4_resp_finish (TraceState.mk (registerTransaction s.registry s.store n)
                (sput st n.uuid { r2 with state := .received }) hs1
                (s.pending.eraseIdx i) evs1 s.used (n.uuid :: s.delivered))
                n.uuid n.transactionId r3 _ h3 hr3 rfl
                (fun n2 _ he hnd2 => absurd (he ▸ List.mem_cons_self n.uuid s.delivered) hnd2) ?_
              intro t2 ht2
              obtain ⟨_, hrec⟩ := h3.regWF t2 n.uuid ht2
              rcases hrec with hrec | ⟨rr, m, hrr, hmm, htid2, _⟩
              · rw [hr3] at hrec
                cases hrec
              · rw [hr3] at hrr
                cases Option.some.inj hrr
                rw [hr3d, hr2d] at hmm
                exact htid2.symm.trans (h.pendingTid n hnp r m hr hmm)
          · exact h3

theorem c4_reconcileOne (modemId : String) (now : Nat) (o : InitOracle)
    (acc : List (String × String) × TraceState) (uuid : String)
    (h : C4Inv acc.2) : C4Inv (reconcileOne modemId now o acc uuid).2 := by
  rcases acc with ⟨handled, s⟩
  unfold reconcileOne
  dsimp only
  split
  · exact c4_sdel s uuid h
  · next r hr =>
    split
    · exact h
    · split
      · exact c4_sdel s uuid h
      · split
        · exact h
        · split
          · exact c4_sdel s uuid h
          · next nf hnf =>
            split
            · exact c4_sdel s uuid h
            · have hnfu : nf.uuid = uuid := by
                obtain ⟨m, hm1, hm2⟩ := h.storeNotif uuid r hr
                rw [hnf] at hm1
                cases Option.some.inj hm1
                exact hm2
              have huu : uuid ∈ s.used := h.usedStore uuid r hr
              by_cases htid : nf.transactionId ≠ ""
              · rw [if_pos htid, if_pos htid]
                have hs1 : ∀ hst2 : r.state ≠ .responded,
                    C4Inv (TraceState.mk (sput s.registry nf.transactionId uuid) s.store
                      s.handlers s.pending s.events s.used s.delivered) :=
                  fun hst2 => c4_reg_put s nf.transactionId uuid h htid huu
                    (Or.inr ⟨r, nf, hr, hnf, rfl, hst2⟩)
                split
                · next heqSt =>
                  -- state notification
                  split
                  · exact c4_pending_append (TraceState.mk
                      (sput s.registry nf.transactionId uuid) s.store s.handlers
                      s.pending s.events s.used s.delivered) nf
                      (hs1 (by rw [heqSt]; exact fun hc => MState.noConfusion hc))
                      (hnfu ▸ huu)
                      (fun r2 m2 h2 h3 => by
                        rw [hnfu] at h2
                        rw [hr] at h2
                        cases Option.some.inj h2
                        rw [hnf] at h3
                        cases Option.some.inj h3
                        rfl)
                      (fun r2 h2 => by
                        rw [hnfu] at h2
                        rw [hr] at h2
                        cases Option.some.inj h2
                        exact heqSt)
                  · split
                    · exact c4_reg_del (TraceState.mk
                        (sput s.registry nf.transactionId uuid)
                        (sdel s.store uuid) s.handlers s.pending
                        (s.events ++ [Ev.removed uuid]) s.used s.delivered)
                        nf.transactionId
                        (c4_fields _ _ (c4_sdel (TraceState.mk
                          (sput s.registry nf.transactionId uuid) s.store s.handlers
                          s.pending s.events s.used s.delivered) uuid
                          (hs1 (by rw [heqSt]; exact fun hc => MState.noConfusion hc)))
                          rfl rfl rfl rfl rfl)
                    · exact c4_initAdded _ uuid
                        (hs1 (by rw [heqSt]; exact fun hc => MState.noConfusion hc))
                · next heqSt =>
                  -- state downloaded
                  have h1 : C4Inv (TraceState.mk (sput s.registry nf.transactionId uuid)
                      s.store s.handlers s.pending s.events s.used s.delivered) :=
                    hs1 (by rw [heqSt]; exact fun hc => MState.noConfusion hc)
                  obtain ⟨n1, hs2, evs2, st, b, hg, hst, hn1u, hn1t⟩ :=
                    ghmrc_c4 (TraceState.mk (sput s.registry nf.transactionId uuid)
                      s.store s.handlers s.pending s.events s.used s.delivered) nf
                      (o.decodeOk uuid) (o.addOk uuid)
                  rw [hg]
                  dsimp only
                  rw [hn1u, hnfu]
                  have hgfind : sfind st uuid = some r ∨ sfind st uuid = none := by
                    rcases hst with rfl | ⟨u2, rfl⟩
                    · exact Or.inl hr
                    · by_cases hu2 : uuid = u2
                      · rw [hu2, sfind_sdel_self]
                        exact Or.inr rfl
                      · rw [sfind_sdel_ne _ u2 uuid hu2]
                        exact Or.inl hr
                  have hg21 : C4Inv (TraceState.mk (sput s.registry nf.transactionId uuid)
                      st hs2 s.pending evs2 s.used s.delivered) := by
                    rcases hst with rfl | ⟨u2, rfl⟩
                    · exact c4_fields _ _ h1 rfl rfl rfl rfl rfl
                    · exact c4_fields _ _ (c4_sdel (TraceState.mk
                        (sput s.registry nf.transactionId uuid) s.store s.handlers
                        s.pending s.events s.used s.delivered) u2 h1) rfl rfl rfl rfl rfl
                  split
                  · exact c4_initAdded _ uuid hg21
                  · split
                    · exact c4_initAdded _ uuid hg21
                    · next st2 heq2 =>
                      obtain ⟨r2, hr2, hr2s, rfl⟩ := updateReceived_some st uuid st2 heq2
                      have hr2r : r2 = r := by
                        rcases hgfind with hf | hf
                        · rw [hf] at hr2
                          exact (Option.some.inj hr2).symm
                        · rw [hf] at hr2
                          cases hr2
                      have hps2 : ∀ n2, n2 ∈ s.pending → n2.uuid = uuid →
                          n2.uuid ∉ s.delivered →
                          (MMSState.mk r2.modemId MState.received r2.mNotificationInd
                            r2.telepathyErrorNotified r2.contentPath).state = .notification := by
                        intro n2 hmem he hnd
                        have hx := hg21.pendingState n2 hmem hnd r2 (by rw [he]; exact hr2)
                        rw [hr2s] at hx
                        exact absurd hx (fun hc => MState.noConfusion hc)
                      have h2 : C4Inv (TraceState.mk (sput s.registry nf.transactionId uuid)
                          (sput st uuid { r2 with state := .received }) hs2 s.pending evs2
                          s.used s.delivered) :=
                        c4_sput (TraceState.mk (sput s.registry nf.transactionId uuid)
                          st hs2 s.pending evs2 s.used s.delivered) uuid r2 _ hg21 hr2 rfl
                          hps2 (Or.inl (fun hc => MState.noConfusion hc))
                      unfold reconcileReceived
                      dsimp only
                      split
                      · rw [hnfu]
                        split
                        · exact c4_initAdded _ uuid h2
                        · next st3 heq3 =>
                          obtain ⟨r3, hr3, hr3s, rfl⟩ := updateResponded_some _ uuid st3 heq3
                          have hr3d : r3 = { r2 with state := .received } := by
                            rw [sfind_sput_self] at hr3
                            exact (Option.some.inj hr3).symm
                          unfold reconcileResponded
                          dsimp only
                          rw [if_neg Bool.false_ne_true]
                          refine c4_initAdded _ uuid
                            (c4_resp_finish (TraceState.mk
                              (sput s.registry nf.transactionId uuid)
                              (sput st uuid { r2 with state := .received }) hs2 s.pending evs2
                              s.used s.delivered) uuid nf.transactionId r3 _ h2 hr3 rfl
                              (fun n2 hmem he hnd => by
                                have hx := h2.pendingState n2 hmem hnd r3 (by rw [he]; exact hr3)
                                rw [hr3d] at hx
                                exact absurd hx (fun hc => MState.noConfusion hc)) ?_)
                          intro t2 ht2
                          obtain ⟨_, hrec⟩ := h2.regWF t2 uuid ht2
                          rcases hrec with hrec | ⟨rr, m, hrr, hmm, htid2, _⟩
                          · rw [sfind_sput_self] at hrec
                            cases hrec
                          · rw [sfind_sput_self] at hrr
                            cases Option.some.inj hrr
                            rw [hr2r] at hmm
                            dsimp only at hmm
                            rw [hnf] at hmm
                            cases Option.some.inj hmm
                            exact htid2.symm
                      · exact c4_initAdded _ uuid h2
                · next heqSt =>
                  -- state received
                  have h1 : C4Inv (TraceState.mk (sput s.registry nf.transactionId uuid)
                      s.store s.handlers s.pending s.events s.used s.delivered) :=
                    hs1 (by rw [heqSt]; exact fun hc => MState.noConfusion hc)
                  unfold reconcileReceived
                  dsimp only
                  split
                  · rw [hnfu]
                    split
                    · exact c4_initAdded _ uuid h1
                    · next st3 heq3 =>
                      obtain ⟨r3, hr3, hr3s, rfl⟩ := updateResponded_some _ uuid st3 heq3
                      have hr3d : r3 = r := by
                        rw [hr] at hr3
                        exact (Option.some.inj hr3).symm
                      have hfin : C4Inv (TraceState.mk
                          (sdel (sput s.registry nf.transactionId uuid) nf.transactionId)
                          (sput s.store uuid { r3 with state := .responded }) s.handlers
                          s.pending s.events s.used s.delivered) := by
                        refine c4_resp_finish (TraceState.mk
                          (sput s.registry nf.transactionId uuid) s.store s.handlers
                          s.pending s.events s.used s.delivered) uuid nf.transactionId r3 _
                          h1 hr3 rfl
                          (fun n2 hmem he hnd => by
                            have hx := h1.pendingState n2 hmem hnd r3 (by rw [he]; exact hr3)
                            rw [hr3d, heqSt] at hx
                            exact absurd hx (fun hc => MState.noConfusion hc)) ?_
                        intro t2 ht2
                        obtain ⟨_, hrec⟩ := h1.regWF t2 uuid ht2
                        rcases hrec with hrec | ⟨rr, m, hrr, hmm, htid2, _⟩
                        · rw [hr3] at hrec
                          cases hrec
                        · rw [hr3] at hrr
                          cases Option.some.inj hrr
                          rw [hr3d, hnf] at hmm
                          cases Option.some.inj hmm
                          exact htid2.symm
                      unfold reconcileResponded
                      dsimp only
                      split
                      · split
                        · exact c4_initAdded _ uuid hfin
                        · split
                          · exact c4_sdel _ uuid hfin
                          · split
                            · exact c4_initAdded _ uuid hfin
                            · split
                              · exact c4_sdel _ uuid hfin
                              · exact c4_initAdded _ uuid hfin
                      · exact c4_initAdded _ uuid hfin
                  · exact c4_initAdded _ uuid h1
                · next heqSt =>
                  -- state responded
                  unfold reconcileResponded
                  dsimp only
                  have hfin : C4Inv (TraceState.mk
                      (sdel (sput s.registry nf.transactionId uuid) nf.transactionId)
                      s.store s.handlers s.pending s.events s.used s.delivered) :=
                    c4_put_del s nf.transactionId uuid h
                  split
                  · split
                    · exact c4_initAdded _ uuid hfin
                    · split
                      · exact c4_sdel _ uuid hfin
                      · split
                        · exact c4_initAdded _ uuid hfin
                        · split
                          · exact c4_sdel _ uuid hfin
                          · exact c4_initAdded _ uuid hfin
                  · exact c4_initAdded _ uuid hfin
                · exact hs1 (by
                    next heqSt =>
                    rw [heqSt]
                    exact fun hc => MState.noConfusion hc)
                · exact hs1 (by
                    next heqSt =>
                    rw [heqSt]
                    exact fun hc => MState.noConfusion hc)
              · rw [if_neg htid, if_neg htid]
                push_neg at htid
                split
                · next heqSt =>
                  split
                  · exact c4_pending_append s nf h (hnfu ▸ huu)
                      (fun r2 m2 h2 h3 => by
                        rw [hnfu] at h2
                        rw [hr] at h2
                        cases Option.some.inj h2
                        rw [hnf] at h3
                        cases Option.some.inj h3
                        rfl)
                      (fun r2 h2 => by
                        rw [hnfu] at h2
                        rw [hr] at h2
                        cases Option.some.inj h2
                        exact heqSt)
                  · split
                    · exact c4_reg_del (TraceState.mk s.registry
                        (sdel s.store uuid) s.handlers s.pending
                        (s.events ++ [Ev.removed uuid]) s.used s.delivered)
                        nf.transactionId
                        (c4_fields _ _ (c4_sdel s uuid h) rfl rfl rfl rfl rfl)
                    · exact c4_initAdded _ uuid h
                · next heqSt =>
                  obtain ⟨n1, hs2, evs2, st, b, hg, hst, hn1u, hn1t⟩ :=
                    ghmrc_c4 s nf (o.decodeOk uuid) (o.addOk uuid)
                  rw [hg]
                  dsimp only
                  rw [hn1u, hnfu]
                  have hgfind : sfind st uuid = some r ∨ sfind st uuid = none := by
                    rcases hst with rfl | ⟨u2, rfl⟩
                    · exact Or.inl hr
                    · by_cases hu2 : uuid = u2
                      · rw [hu2, sfind_sdel_self]
                        exact Or.inr rfl
                      · rw [sfind_sdel_ne _ u2 uuid hu2]
                        exact Or.inl hr
                  have hg21 : C4Inv (TraceState.mk s.registry st hs2 s.pending evs2
                      s.used s.delivered) := by
                    rcases hst with rfl | ⟨u2, rfl⟩
                    · exact c4_fields _ _ h rfl rfl rfl rfl rfl
                    · exact c4_fields _ _ (c4_sdel s u2 h) rfl rfl rfl rfl rfl
                  split
                  · exact c4_initAdded _ uuid hg21
                  · split
                    · exact c4_initAdded _ uuid hg21
                    · next st2 heq2 =>
                      obtain ⟨r2, hr2, hr2s, rfl⟩ := updateReceived_some st uuid st2 heq2
                      have hr2r : r2 = r := by
                        rcases hgfind with hf | hf
                        · rw [hf] at hr2
                          exact (Option.some.inj hr2).symm
                        · rw [hf] at hr2
                          cases hr2
                      have h2 : C4Inv (TraceState.mk s.registry
                          (sput st uuid { r2 with state := .received }) hs2 s.pending evs2
                          s.used s.delivered) :=
                        c4_sput (TraceState.mk s.registry st hs2 s.pending evs2
                          s.used s.delivered) uuid r2 _ hg21 hr2 rfl
                          (fun n2 hmem he hnd => by
                            have hx := hg21.pendingState n2 hmem hnd r2 (by rw [he]; exact hr2)
                            rw [hr2s] at hx
                            exact absurd hx (fun hc => MState.noConfusion hc))
                          (Or.inl (fun hc => MState.noConfusion hc))
                      unfold reconcileReceived
                      dsimp only
                      split
                      · rw [hnfu]
                        split
                        · exact c4_initAdded _ uuid h2
                        · next st3 heq3 =>
                          obtain ⟨r3, hr3, hr3s, rfl⟩ := updateResponded_some _ uuid st3 heq3
                          have hr3d : r3 = { r2 with state := .received } := by
                            rw [sfind_sput_self] at hr3
                            exact (Option.some.inj hr3).symm
                          unfold reconcileResponded
                          dsimp only
                          rw [if_neg Bool.false_ne_true]
                          refine c4_initAdded _ uuid
                            (c4_resp_finish (TraceState.mk s.registry
                              (sput st uuid { r2 with state := .received }) hs2 s.pending evs2
                              s.used s.delivered) uuid nf.transactionId r3 _ h2 hr3 rfl
                              (fun n2 hmem he hnd => by
                                have hx := h2.pendingState n2 hmem hnd r3 (by rw [he]; exact hr3)
                                rw [hr3d] at hx
                                exact absurd hx (fun hc => MState.noConfusion hc)) ?_)
                          intro t2 ht2
                          obtain ⟨ht2ne, hrec⟩ := h2.regWF t2 uuid ht2
                          rcases hrec with hrec | ⟨rr, m, hrr, hmm, htid2, _⟩
                          · rw [sfind_sput_self] at hrec
                            cases hrec
                          · rw [sfind_sput_self] at hrr
                            cases Option.some.inj hrr
                            rw [hr2r] at hmm
                            dsimp only at hmm
                            rw [hnf] at hmm
                            cases Option.some.inj hmm
                            exact absurd (htid.symm.trans htid2) (Ne.symm ht2ne)
                      · exact c4_initAdded _ uuid h2
                · next heqSt =>
                  unfold reconcileReceived
                  dsimp only
                  split
                  · rw [hnfu]
                    split
                    · exact c4_initAdded _ uuid h
                    · next st3 heq3 =>
                      obtain ⟨r3, hr3, hr3s, rfl⟩ := updateResponded_some _ uuid st3 heq3
                      have hr3d : r3 = r := by
                        rw [hr] at hr3
                        exact (Option.some.inj hr3).symm
                      have hfin : C4Inv (TraceState.mk (sdel s.registry nf.transactionId)
                          (sput s.store uuid { r3 with state := .responded }) s.handlers
                          s.pending s.events s.used s.delivered) := by
                        refine c4_resp_finish s uuid nf.transactionId r3 _ h hr3 rfl
                          (fun n2 hmem he hnd => by
                            have hx := h.pendingState n2 hmem hnd r3 (by rw [he]; exact hr3)
                            rw [hr3d, heqSt] at hx
                            exact absurd hx (fun hc => MState.noConfusion hc)) ?_
                        intro t2 ht2
                        obtain ⟨ht2ne, hrec⟩ := h.regWF t2 uuid ht2
                        rcases hrec with hrec | ⟨rr, m, hrr, hmm, htid2, _⟩
                        · rw [hr3] at hrec
                          cases hrec
                        · rw [hr3] at hrr
                          cases Option.some.inj hrr
                          rw [hr3d, hnf] at hmm
                          cases Option.some.inj hmm
                          exact absurd (htid.symm.trans htid2) (Ne.symm ht2ne)
                      unfold reconcileResponded
                      dsimp only
                      split
                      · split
                        · exact c4_initAdded _ uuid hfin
                        · split
                          · exact c4_sdel _ uuid hfin
                          · split
                            · exact c4_initAdded _ uuid hfin
                            · split
                              · exact c4_sdel _ uuid hfin
                              · exact c4_initAdded _ uuid hfin
                      · exact c4_initAdded _ uuid hfin
                  · exact c4_initAdded _ uuid h
                · next heqSt =>
                  unfold reconcileResponded
                  dsimp only
                  have hfin : C4Inv (TraceState.mk (sdel s.registry nf.transactionId)
                      s.store s.handlers s.pending s.events s.used s.delivered) :=
                    c4_reg_del s nf.transactionId h
                  split
                  · split
                    · exact c4_initAdded _ uuid hfin
                    · split
                      · exact c4_sdel _ uuid hfin
                      · split
                        · exact c4_initAdded _ uuid hfin
                        · split
                          · exact c4_sdel _ uuid hfin
                          · exact c4_initAdded _ uuid hfin
                  · exact c4_initAdded _ uuid hfin
                · exact h
                · exact h

theorem c4_reconcile (s : TraceState) (modemId : String) (now : Nat)
    (o : InitOracle) (h : C4Inv s) : C4Inv (reconcileStep s modemId now o) := by
  unfold reconcileStep
  exact foldl_pres (reconcileOne modemId now o) (fun acc => C4Inv acc.2)
    (fun b a hb => c4_reconcileOne modemId now o b a hb)
    (s.store.map Prod.fst) ([], s) h

theorem c4_start (store0 : Store)
    (hwf : ∀ u r, sfind store0 u = some r →
      ∃ m, r.mNotificationInd = some m ∧ m.uuid = u) :
    C4Inv (startState store0) := by
  unfold startState
  refine ⟨hwf, ?_, ?_, ?_, ?_, ?_, ?_, ?_⟩
  · intro u r h1
    exact sfind_mem_keys store0 u r h1
  · intro t u h1
    simp [sfind] at h1
  · intro n h1
    exact absurd h1 (List.not_mem_nil n)
  · intro u h1
    exact absurd h1 (List.not_mem_nil u)
  · intro n h1
    exact absurd h1 (List.not_mem_nil n)
  · intro n h1
    exact absurd h1 (List.not_mem_nil n)
  · intro t u h1
    simp [sfind] at h1

theorem c4_run : ∀ (tr : List Step) (s : TraceState), C4Inv s →
    OkFrom deliverOnce s tr → C4Inv (runTrace s tr) := by
  intro tr
  induction tr with
  | nil => intro s h _; exact h
  | cons st rest ih =>
    intro s h hok
    obtain ⟨h1, h2⟩ := hok
    refine ih _ ?_ h2
    cases st with
    | push m n => exact c4_push s m n h
    | deliverIdx i o2 => exact c4_deliver s i o2 h h1
    | redownload u f => exact c4_redownload s u f h
    | deleteCall u t2 => exact c4_delete s u t2 h
    | reconcile m t2 o2 => exact c4_reconcile s m t2 o2 h

/-- C4 (amended): over any trace of pushes, handler runs, redownload and
delete requests and startup reconciliations from a boot store whose
records each hold their keying notification, and in which no queued
notification is handled twice (each channel entry is consumed at most
once), no registry entry ever points at a record in state responded. -/
theorem C4_amended (store0 : Store)
    (hwf : ∀ u r, sfind store0 u = some r →
      ∃ m, r.mNotificationInd = some m ∧ m.uuid = u)
    (tr : List Step) (hok : OkFrom deliverOnce (startState store0) tr) :
    ∀ t u r, sfind (runTrace (startState store0) tr).registry t = some u →
      sfind (runTrace (startState store0) tr).store u = some r →
      r.state ≠ .responded := by
  intro t u r h1 h2
  have h := c4_run tr (startState store0) (c4_start store0 hwf) hok
  obtain ⟨_, hrec⟩ := h.regWF t u h1
  rcases hrec with hrec | ⟨r2, m, hr2, _, _, hst⟩
  · rw [h2] at hrec
    cases hrec
  · rw [h2] at hr2
    cases Option.some.inj hr2
    exact hst

/-- Witness instantiating C4_amended on a concrete constrained trace. -/
theorem C4_witness :
    (MMSState.mk "m" MState.notification (some wNotifA) true "").state ≠
      MState.responded :=
  C4_amended [] (fun u r hfind => by simp [sfind] at hfind)
    [.push "m" wNotifA, .deliverIdx 0 ⟨.failActivate, true⟩]
    ⟨trivial, fun n _ => List.not_mem_nil n.uuid, trivial⟩
    "T" "A" (MMSState.mk "m" MState.notification (some wNotifA) true "")
    (by decide) (by decide)
